import Mathlib

/-!
Verification development for the KnightVision chess-analysis backend.

We give a shallow embedding of the Python backend (`app/services/analysis.py`,
`app/services/stockfish.py`, `app/services/queue_service.py`,
`app/services/tactics.py`) in Lean 4 and settle the frozen claims about it.

Modelling conventions:
* Python floats that hold pawn-unit evaluations are modelled as `ℚ`
  (the code only compares, negates, adds and subtracts them).
* The python-chess library is an external dependency; boards are modelled
  abstractly by records of the primitives the services actually call
  (`piece_at`, `attackers`, `is_check`, `legal_moves`, `fen`, ...).
* The Stockfish engine is an oracle function; a raised engine exception is
  modelled by the oracle returning `none`.
* Redis is modelled by an explicit state record; each Redis command used by
  `queue_service.py` (`zadd`, `zrange 0 0`, `sismember`, `set`) is a pure
  function on that state.
-/

deriving instance DecidableEq for Except

/- Core marks the rational-number operations irreducible; the concrete
evaluations in the witnesses below need them to unfold. -/
set_option allowUnsafeReducibility true in
attribute [semireducible] Rat.add Rat.sub Rat.mul Rat.ofScientific
  Rat.normalize Rat.divInt Rat.inv Rat.div Rat.blt

namespace KnightVision

/-! ### NAG constants (values of `chess.pgn.NAG_*`) and the move classifier
    (`analysis.py`: `get_nag_for_evaluation_change`, `classify_move`) -/

def NAG_GOOD_MOVE : Nat := 1

def NAG_MISTAKE : Nat := 2

def NAG_BRILLIANT_MOVE : Nat := 3

def NAG_BLUNDER : Nat := 4

def NAG_SPECULATIVE_MOVE : Nat := 5

def NAG_DUBIOUS_MOVE : Nat := 6

/-- `analysis.py::get_nag_for_evaluation_change`. -/
def get_nag_for_evaluation_change (evaluation_change : ℚ) : Nat :=
  if evaluation_change < -2.0 then NAG_BLUNDER
  else if evaluation_change < -1.0 then NAG_MISTAKE
  else if evaluation_change < -0.5 then NAG_DUBIOUS_MOVE
  else if evaluation_change < 0.1 then NAG_GOOD_MOVE
  else if evaluation_change < 0.5 then NAG_GOOD_MOVE
  else NAG_BRILLIANT_MOVE

/-- `analysis.py::classify_move`. -/
def classify_move (evaluation_change : ℚ) : String :=
  let nag := get_nag_for_evaluation_change evaluation_change
  if nag = NAG_BLUNDER then "blunder"
  else if nag = NAG_MISTAKE then "mistake"
  else if nag = NAG_DUBIOUS_MOVE then "inaccuracy"
  else if nag = NAG_GOOD_MOVE then
    (if evaluation_change < 0.1 then "good" else "great")
  else if nag = NAG_BRILLIANT_MOVE then "excellent"
  else "good"

lemma classify_move_cases (d : ℚ) :
    classify_move d =
      if d < -2 then "blunder" else if d < -1 then "mistake"
      else if d < -(1/2) then "inaccuracy" else if d < 1/10 then "good"
      else if d < 1/2 then "great" else "excellent" := by
  have e1 : (-2.0 : ℚ) = -2 := by norm_num
  have e2 : (-1.0 : ℚ) = -1 := by norm_num
  have e3 : (-0.5 : ℚ) = -(1/2) := by norm_num
  have e4 : (0.1 : ℚ) = 1/10 := by norm_num
  have e5 : (0.5 : ℚ) = 1/2 := by norm_num
  rw [classify_move, get_nag_for_evaluation_change, e1, e2, e3, e4, e5]
  simp only [NAG_GOOD_MOVE, NAG_MISTAKE, NAG_BRILLIANT_MOVE, NAG_BLUNDER,
    NAG_DUBIOUS_MOVE]
  rcases lt_or_le d (-2) with h1 | h1
  · simp only [if_pos h1]
    norm_num
  · rcases lt_or_le d (-1) with h2 | h2
    · simp only [if_neg (not_lt.mpr h1), if_pos h2]
      norm_num
    · rcases lt_or_le d (-(1/2)) with h3 | h3
      · simp only [if_neg (not_lt.mpr h1), if_neg (not_lt.mpr h2), if_pos h3]
        norm_num
      · rcases lt_or_le d (1/10) with h4 | h4
        · simp only [if_neg (not_lt.mpr h1), if_neg (not_lt.mpr h2),
            if_neg (not_lt.mpr h3), if_pos h4]
          norm_num
        · rcases lt_or_le d (1/2) with h5 | h5
          · simp only [if_neg (not_lt.mpr h1), if_neg (not_lt.mpr h2),
              if_neg (not_lt.mpr h3), if_neg (not_lt.mpr h4), if_pos h5]
            norm_num
          · simp only [if_neg (not_lt.mpr h1), if_neg (not_lt.mpr h2),
              if_neg (not_lt.mpr h3), if_neg (not_lt.mpr h4),
              if_neg (not_lt.mpr h5)]
            norm_num

/-- C6: `classify_move` realises exactly the six Δ-ranges of the spec's
classification table: blunder iff Δ < −2.0, mistake iff −2.0 ≤ Δ < −1.0,
inaccuracy iff −1.0 ≤ Δ < −0.5, good iff −0.5 ≤ Δ < 0.1, great iff
0.1 ≤ Δ < 0.5, excellent iff Δ ≥ 0.5. -/
theorem classify_move_matches_delta_table (d : ℚ) :
    (classify_move d = "blunder" ↔ d < -2) ∧
    (classify_move d = "mistake" ↔ (-2 ≤ d ∧ d < -1)) ∧
    (classify_move d = "inaccuracy" ↔ (-1 ≤ d ∧ d < -(1/2))) ∧
    (classify_move d = "good" ↔ (-(1/2) ≤ d ∧ d < 1/10)) ∧
    (classify_move d = "great" ↔ (1/10 ≤ d ∧ d < 1/2)) ∧
    (classify_move d = "excellent" ↔ 1/2 ≤ d) := by
  rw [classify_move_cases]
  split_ifs with h1 h2 h3 h4 h5 <;>
    refine ⟨?_, ?_, ?_, ?_, ?_, ?_⟩ <;>
    constructor <;> intro hh <;>
    first
      | rfl
      | linarith
      | (exact absurd hh (by decide))
      | (rcases hh with ⟨hh1, hh2⟩; linarith)
      | (exact ⟨by linarith, by linarith⟩)

/-! ### Engine evaluations and the evaluation cache
    (`stockfish.py`: `StockfishService.evaluate_position`, `_cache_position`)

The result dict built by `evaluate_position` on a cache miss. The engine
analysis itself (`engine.analyse`, score extraction, `score / 100.0`,
principal-variation head) is abstracted as an oracle producing the whole
result record. -/

structure EngineEval where
  fen : String
  evaluation : ℚ
  depth : Nat
  is_mate : Bool
  mate_in : Option Int
  best_move : Option String
  deriving DecidableEq, Repr

/-- The piece-placement normalisation used to build the cache key:
`board.fen().split(" ")[0]`.  For a valid FEN `chess.Board(fen).fen()`
round-trips the piece-placement field unchanged, so this is the first
space-separated field of the input FEN, i.e. the characters before the
first space. -/
def normalized_fen (fen : String) : String :=
  String.mk (fen.toList.takeWhile (fun c => c ≠ ' '))

/-- The cache key `f"{normalized_fen}_{search_depth}"` from
`evaluate_position`. -/
def cache_key (fen : String) (search_depth : Nat) : String :=
  normalized_fen fen ++ "_" ++ toString search_depth

/-- `self._position_cache`, a Python dict in insertion order. -/
abbrev EvalCache := List (String × EngineEval)

def cache_lookup (c : EvalCache) (k : String) : Option EngineEval :=
  (c.find? (fun p => p.1 = k)).map (fun p => p.2)

/-- `stockfish.py::StockfishService._cache_position`: when at capacity,
remove the first inserted entry (`next(iter(dict))`), then insert. On the
only call path the key is not yet present, so insertion is an append. -/
def cache_position (max_cache_size : Nat) (c : EvalCache) (k : String)
    (r : EngineEval) : EvalCache :=
  let c' := if max_cache_size ≤ c.length then c.drop 1 else c
  c' ++ [(k, r)]

/-- `stockfish.py::StockfishService.evaluate_position`, caching behaviour:
look the key up, return the cached dict on a hit, otherwise run the engine
oracle and insert the result.  `engine` abstracts the analyse-and-build
block; hit/miss counters are observability only and are omitted. -/
def evaluate_position (engine : String → Nat → EngineEval)
    (cache : EvalCache) (fen : String) (search_depth : Nat) :
    EngineEval × EvalCache :=
  let key := cache_key fen search_depth
  match cache_lookup cache key with
  | some r => (r, cache)
  | none =>
      let r := engine fen search_depth
      (r, cache_position 10000 cache key r)

/-- Two valid FENs: identical piece placement, different active color. -/
def fen_kings_w : String := "8/8/8/8/8/8/8/K6k w - - 0 1"

def fen_kings_b : String := "8/8/8/8/8/8/8/K6k b - - 0 1"

/-- An engine oracle that evaluates the two positions differently
(as a real engine would: the side to move differs). -/
def engine_cex : String → Nat → EngineEval := fun f d =>
  if f = fen_kings_w then ⟨f, 1, d, false, none, some "a1a2"⟩
  else ⟨f, -1, d, false, none, some "h1h2"⟩

/-- C5 is handled later; this is the counterexample for C2.  The claim says
the cache key includes the active color and castling rights, so that two
FENs with the same placement but different active color use two distinct
cache entries.  In the code the key is only `placement_depth`: the two FENs
below share one cache key, and evaluating the second returns the first's
cached result, not what the engine says about the second position. -/
theorem evaluate_position_cache_key_ignores_color_cex :
    fen_kings_w ≠ fen_kings_b ∧
    normalized_fen fen_kings_w = normalized_fen fen_kings_b ∧
    cache_key fen_kings_w 10 = cache_key fen_kings_b 10 ∧
    (evaluate_position engine_cex
        (evaluate_position engine_cex [] fen_kings_w 10).2 fen_kings_b 10).1
      = (evaluate_position engine_cex [] fen_kings_w 10).1 ∧
    engine_cex fen_kings_b 10
      ≠ (evaluate_position engine_cex [] fen_kings_w 10).1 := by
  refine ⟨by decide, by decide, by decide, by decide, by decide⟩

lemma cache_lookup_append (c₁ c₂ : EvalCache) (k : String) :
    cache_lookup (c₁ ++ c₂) k =
      (cache_lookup c₁ k).orElse (fun _ => cache_lookup c₂ k) := by
  induction c₁ with
  | nil => simp [cache_lookup]
  | cons p t ih =>
      by_cases hp : p.1 = k <;>
        simp [cache_lookup, List.find?, hp, Option.orElse] at ih ⊢ <;>
        simpa [cache_lookup] using ih

lemma cache_lookup_drop_none (c : EvalCache) (k : String) (n : Nat)
    (h : cache_lookup c k = none) : cache_lookup (c.drop n) k = none := by
  induction c generalizing n with
  | nil => simp [cache_lookup]
  | cons p t ih =>
      cases n with
      | zero => simpa using h
      | succ m =>
          by_cases hp : p.1 = k
          · simp [cache_lookup, List.find?, hp] at h
          · simp only [List.drop_succ_cons]
            exact ih m (by simpa [cache_lookup, List.find?, hp] using h)

lemma cache_lookup_cache_position (c : EvalCache) (k : String)
    (r : EngineEval) (m : Nat) (h : cache_lookup c k = none) :
    cache_lookup (cache_position m c k r) k = some r := by
  unfold cache_position
  by_cases hm : m ≤ c.length
  · rw [if_pos hm, cache_lookup_append,
      cache_lookup_drop_none _ _ _ h]
    simp [cache_lookup]
  · rw [if_neg hm, cache_lookup_append, h]
    simp [cache_lookup]

lemma evaluate_position_hit (engine : String → Nat → EngineEval)
    (c : EvalCache) (fen : String) (d : Nat) (r : EngineEval)
    (h : cache_lookup c (cache_key fen d) = some r) :
    evaluate_position engine c fen d = (r, c) := by
  unfold evaluate_position
  simp only [h]

lemma evaluate_position_miss (engine : String → Nat → EngineEval)
    (c : EvalCache) (fen : String) (d : Nat)
    (h : cache_lookup c (cache_key fen d) = none) :
    evaluate_position engine c fen d
      = (engine fen d, cache_position 10000 c (cache_key fen d) (engine fen d)) := by
  unfold evaluate_position
  simp only [h]

/-- C2 (amended): the cache key of `evaluate_position` is determined by the
piece-placement field of the FEN together with the depth only — active
color, castling rights and the move counters are all excluded.  Hence any
two FENs with the same placement field share one cache entry at equal
depth: after evaluating the first (on a cache miss), evaluating the second
returns the first's cached result without consulting the engine. -/
theorem evaluate_position_cache_key_placement_only
    (engine : String → Nat → EngineEval) (cache : EvalCache)
    (fen₁ fen₂ : String) (d : Nat)
    (hplace : normalized_fen fen₁ = normalized_fen fen₂)
    (hmiss : cache_lookup cache (cache_key fen₁ d) = none) :
    cache_key fen₁ d = cache_key fen₂ d ∧
    (evaluate_position engine
        (evaluate_position engine cache fen₁ d).2 fen₂ d).1
      = (evaluate_position engine cache fen₁ d).1 := by
  have hkey : cache_key fen₁ d = cache_key fen₂ d := by
    unfold cache_key; rw [hplace]
  refine ⟨hkey, ?_⟩
  rw [evaluate_position_miss engine cache fen₁ d hmiss,
    evaluate_position_hit engine _ fen₂ d (engine fen₁ d)
      (by rw [← hkey]; exact cache_lookup_cache_position _ _ _ _ hmiss)]

/-- Witness for the amended C2 theorem at the two concrete FENs above. -/
theorem evaluate_position_cache_key_placement_only_witness :
    cache_key fen_kings_w 10 = cache_key fen_kings_b 10 ∧
    (evaluate_position engine_cex
        (evaluate_position engine_cex [] fen_kings_w 10).2 fen_kings_b 10).1
      = (evaluate_position engine_cex [] fen_kings_w 10).1 :=
  evaluate_position_cache_key_placement_only engine_cex [] fen_kings_w
    fen_kings_b 10 (by decide) (by decide)

/-! ### The analysis queue (`queue_service.py::AnalysisQueue`)

Redis state: the sorted set `knight_vision:analysis_queue` (members with
scores, in insertion order), the set `knight_vision:processing`, and the
per-game status strings.  A sorted-set member is the `json.dumps` of the
job dict; with the fixed key order used by `add_job`, `json.dumps` is
injective on these dicts, so a member is modelled by the record itself.
`time.time()` values are modelled as `ℚ` and passed explicitly. -/

structure QueueJob where
  game_id : String
  user_id : String
  priority : Int
  timestamp : ℚ
  status : String
  deriving DecidableEq, Repr

structure StatusData where
  status : String
  progress : Nat
  phase : String
  queue_time : ℚ
  start_time : Option ℚ
  end_time : Option ℚ
  deriving DecidableEq, Repr

structure RedisState where
  queue : List (QueueJob × Int)
  processing : List String
  statuses : List (String × StatusData)
  deriving Repr

/-- Redis `ZADD key {member: score}`: update the score when the member is
already present, otherwise append the member.  Returns the number of newly
added members (0 or 1), which is what `add_job` returns. -/
def zadd (q : List (QueueJob × Int)) (member : QueueJob) (score : Int) :
    List (QueueJob × Int) × Nat :=
  if q.any (fun p => p.1 = member) then
    (q.map (fun p => if p.1 = member then (member, score) else p), 0)
  else
    (q ++ [(member, score)], 1)

/-- Redis `SET` of a status key (assoc update). -/
def set_status (sts : List (String × StatusData)) (game_id : String)
    (d : StatusData) : List (String × StatusData) :=
  if sts.any (fun p => p.1 = game_id) then
    sts.map (fun p => if p.1 = game_id then (game_id, d) else p)
  else
    sts ++ [(game_id, d)]

/-- `queue_service.py::AnalysisQueue.add_job`: build the job dict with the
current time, write the initial status, then `zadd` the serialized job with
score `-priority`. -/
def add_job (st : RedisState) (game_id user_id : String) (priority : Int)
    (now : ℚ) : Nat × RedisState :=
  let job : QueueJob := ⟨game_id, user_id, priority, now, "queued"⟩
  let status_data : StatusData := ⟨"queued", 0, "waiting", now, none, none⟩
  let sts := set_status st.statuses game_id status_data
  let (q, added) := zadd st.queue job (-priority)
  (added, { st with queue := q, statuses := sts })

/-- Redis `ZRANGE key 0 0`: the member with the smallest score (Redis
breaks score ties by member lexicographic order; the fold keeps the
earlier member, which only differs on ties and is irrelevant to the
theorems below, all stated score-minimality-robustly). -/
def zrange_head (q : List (QueueJob × Int)) : Option QueueJob :=
  match q with
  | [] => none
  | p :: rest =>
      some (rest.foldl (fun best x => if x.2 < best.2 then x else best) p).1

/-- `queue_service.py::AnalysisQueue.get_next_job`: read the single head of
the sorted set; if its game is being processed return `None`, else return
it.  Only read commands (`zrange`, `sismember`) are issued, so the state is
unchanged and the function is a pure query. -/
def get_next_job (st : RedisState) : Option QueueJob :=
  match zrange_head st.queue with
  | none => none
  | some job =>
      if st.processing.contains job.game_id then none else some job

/-- A queue state in which game `g1` is already queued (status `queued`),
enqueued at time 100 with priority 0. -/
def st_requeue : RedisState :=
  { queue := [(⟨"g1", "u1", 0, 100, "queued"⟩, 0)]
    processing := []
    statuses := [("g1", ⟨"queued", 0, "waiting", 100, none, none⟩)] }

/-- Counterexample to C3.  `game_id` `g1` is already present with status
`queued`, yet calling `add_job` again (at a later clock time, as any real
re-enqueue is) is not a no-op: the serialized job differs in its
`timestamp` field, so `zadd` appends a second member and the queue length
grows from 1 to 2, a second entry for the same `game_id`. -/
theorem add_job_requeue_not_noop_cex :
    (∃ p ∈ st_requeue.queue, p.1.game_id = "g1" ∧ p.1.status = "queued") ∧
    st_requeue.queue.length = 1 ∧
    (add_job st_requeue "g1" "u1" 0 200).2.queue.length = 2 ∧
    ((add_job st_requeue "g1" "u1" 0 200).2.queue.map
        (fun p => p.1.game_id)) = ["g1", "g1"] := by
  exact ⟨⟨(⟨"g1", "u1", 0, 100, "queued"⟩, 0), by decide, by decide, by decide⟩,
    by decide, by decide, by decide⟩

/-- C3 (amended): `add_job` is idempotent only on the exact serialized job.
If the very member (same `game_id`, `user_id`, `priority`, `timestamp`) is
already in the sorted set, re-adding leaves the queue length unchanged;
if the member differs in any field — in particular a fresh enqueue
timestamp for an already-queued game — a second entry is appended and the
length grows by one. -/
theorem add_job_idempotent_only_on_exact_member (st : RedisState)
    (game_id user_id : String) (priority : Int) (now : ℚ) :
    (st.queue.any
        (fun p => p.1 = ⟨game_id, user_id, priority, now, "queued"⟩) = true →
      (add_job st game_id user_id priority now).2.queue.length
        = st.queue.length) ∧
    (st.queue.any
        (fun p => p.1 = ⟨game_id, user_id, priority, now, "queued"⟩) = false →
      (add_job st game_id user_id priority now).2.queue.length
        = st.queue.length + 1) := by
  constructor <;> intro h <;>
    simp [add_job, zadd, h]

/-- Witness for the amended C3 theorem: re-adding the identical member is a
no-op on the length; adding with a fresh timestamp grows the length. -/
theorem add_job_idempotent_only_on_exact_member_witness :
    ((add_job st_requeue "g1" "u1" 0 100).2.queue.length
        = st_requeue.queue.length) ∧
    ((add_job st_requeue "g1" "u1" 0 200).2.queue.length
        = st_requeue.queue.length + 1) :=
  ⟨(add_job_idempotent_only_on_exact_member st_requeue "g1" "u1" 0 100).1
      (by decide),
    (add_job_idempotent_only_on_exact_member st_requeue "g1" "u1" 0 200).2
      (by decide)⟩

/-- Job of a high-priority game (priority 5, so score −5). -/
def job_ga : QueueJob := ⟨"ga", "u1", 5, 100, "queued"⟩

/-- Job of a lower-priority game (priority 1, so score −1). -/
def job_gb : QueueJob := ⟨"gb", "u2", 1, 110, "queued"⟩

/-- State where the highest-priority job's game is being processed while a
claimable lower-priority job waits. -/
def st_head_processing : RedisState :=
  { queue := [(job_ga, -5), (job_gb, -1)]
    processing := ["ga"]
    statuses := [] }

/-- Counterexample to C4.  The queue holds a job (`gb`) whose game is not
in the processing set, but `get_next_job` returns `None` anyway, because
the single highest-priority entry (`ga`) is being processed and the code
only ever inspects `zrange(queue, 0, 0)`. -/
theorem get_next_job_skips_nothing_cex :
    (job_gb, -1) ∈ st_head_processing.queue ∧
    st_head_processing.processing.contains job_gb.game_id = false ∧
    get_next_job st_head_processing = none := by
  exact ⟨by decide, by decide, by decide⟩

lemma foldl_min_spec (l : List (QueueJob × Int)) (a : QueueJob × Int) :
    (l.foldl (fun best x => if x.2 < best.2 then x else best) a) ∈ a :: l ∧
    (l.foldl (fun best x => if x.2 < best.2 then x else best) a).2 ≤ a.2 ∧
    ∀ x ∈ l,
      (l.foldl (fun best x => if x.2 < best.2 then x else best) a).2 ≤ x.2 := by
  induction l generalizing a with
  | nil => simp
  | cons b t ih =>
      simp only [List.foldl_cons]
      obtain ⟨hmem, hle, hall⟩ := ih (if b.2 < a.2 then b else a)
      have hba : (if b.2 < a.2 then b else a).2 ≤ a.2 := by
        by_cases hb : b.2 < a.2
        · rw [if_pos hb]; exact le_of_lt hb
        · rw [if_neg hb]
      have hbb : (if b.2 < a.2 then b else a).2 ≤ b.2 := by
        by_cases hb : b.2 < a.2
        · rw [if_pos hb]
        · rw [if_neg hb]; exact le_of_not_lt hb
      refine ⟨?_, le_trans hle hba, ?_⟩
      · rcases List.mem_cons.mp hmem with hm | hm
        · by_cases hb : b.2 < a.2
          · rw [hm, if_pos hb]
            exact List.mem_cons_of_mem _ (List.mem_cons_self _ _)
          · rw [hm, if_neg hb]
            exact List.mem_cons_self _ _
        · exact List.mem_cons_of_mem _ (List.mem_cons_of_mem _ hm)
      · intro x hx
        rcases List.mem_cons.mp hx with hx1 | hx1
        · rw [hx1]
          exact le_trans hle hbb
        · exact hall x hx1

lemma zrange_head_spec (q : List (QueueJob × Int)) (j : QueueJob)
    (h : zrange_head q = some j) :
    ∃ s, (j, s) ∈ q ∧ ∀ p ∈ q, s ≤ p.2 := by
  match q with
  | [] => simp [zrange_head] at h
  | p :: rest =>
      simp only [zrange_head, Option.some.injEq] at h
      obtain ⟨hmem, hle, hall⟩ := foldl_min_spec rest p
      refine ⟨(rest.foldl (fun best x => if x.2 < best.2 then x else best) p).2,
        ?_, ?_⟩
      · rw [← h]
        simpa using hmem
      · intro x hx
        rcases List.mem_cons.mp hx with hx1 | hx1
        · rw [hx1]
          exact hle
        · exact hall x hx1

/-- C4 (amended): `get_next_job` inspects only the single head of the
sorted set (`zrange 0 0`).  If it returns a job, that job has minimal score
(highest priority) in the whole queue and its game is not being processed;
if it returns `None`, either the queue is empty or some minimal-score job's
game is in the processing set — even when lower-priority claimable jobs
remain queued.  Nothing is removed: the function issues only read
commands. -/
theorem get_next_job_head_only (st : RedisState) :
    (∀ j, get_next_job st = some j →
      (∃ s, (j, s) ∈ st.queue ∧ ∀ p ∈ st.queue, s ≤ p.2) ∧
        st.processing.contains j.game_id = false) ∧
    (get_next_job st = none →
      st.queue = [] ∨
        ∃ j s, (j, s) ∈ st.queue ∧ (∀ p ∈ st.queue, s ≤ p.2) ∧
          st.processing.contains j.game_id = true) := by
  constructor
  · intro j hj
    unfold get_next_job at hj
    cases hh : zrange_head st.queue with
    | none => rw [hh] at hj; simp at hj
    | some j' =>
        rw [hh] at hj
        have hj' : (if st.processing.contains j'.game_id = true then none
            else some j') = some j := hj
        by_cases hp : st.processing.contains j'.game_id = true
        · rw [if_pos hp] at hj'
          cases hj'
        · rw [if_neg hp] at hj'
          have hjj : j' = j := by injection hj'
          subst hjj
          exact ⟨zrange_head_spec _ _ hh, by simpa using hp⟩
  · intro hnone
    unfold get_next_job at hnone
    cases hh : zrange_head st.queue with
    | none =>
        left
        cases hq : st.queue with
        | nil => rfl
        | cons p rest => rw [hq] at hh; simp [zrange_head] at hh
    | some j' =>
        rw [hh] at hnone
        have hnone' : (if st.processing.contains j'.game_id = true then none
            else some j') = (none : Option QueueJob) := hnone
        by_cases hp : st.processing.contains j'.game_id = true
        · right
          obtain ⟨s, hmem, hmin⟩ := zrange_head_spec _ _ hh
          exact ⟨j', s, hmem, hmin, hp⟩
        · rw [if_neg hp] at hnone'
          cases hnone'

/-- Witness for the amended C4 theorem, applied at `st_head_processing`
(returns `None` with the minimal-score game being processed) and at the
same state with an empty processing set (returns the head job). -/
theorem get_next_job_head_only_witness :
    (st_head_processing.queue = [] ∨
      ∃ j s, (j, s) ∈ st_head_processing.queue ∧
        (∀ p ∈ st_head_processing.queue, s ≤ p.2) ∧
        st_head_processing.processing.contains j.game_id = true) ∧
    ((∃ s, (job_ga, s) ∈ st_head_processing.queue ∧
        ∀ p ∈ st_head_processing.queue, s ≤ p.2) ∧
      ([] : List String).contains job_ga.game_id = false) :=
  ⟨(get_next_job_head_only st_head_processing).2 (by decide),
    (get_next_job_head_only
        { st_head_processing with processing := [] }).1 job_ga (by decide)⟩

/-! ### Chess primitives (python-chess, modelled abstractly)

Squares are numbered 0..63 as in python-chess (`square = 8*rank + file`).
A board is a record of the library primitives the tactics service calls:
`piece_at`, `attackers(color, square)`, `is_check()` and `legal_moves`.
The spec delegates move generation to the library, so these are abstract
data of the model; the tactics-service logic itself is transcribed. -/

abbrev Square := Nat

def square_file (sq : Square) : Nat := sq % 8

def square_rank (sq : Square) : Nat := sq / 8

/-- `chess.square(file_index, rank_index)`. -/
def mk_square (file rank : Nat) : Square := 8 * rank + file

/-- `chess.square_name`: file letter then rank digit. -/
def square_name (sq : Square) : String :=
  String.mk [Char.ofNat (97 + square_file sq), Char.ofNat (49 + square_rank sq)]

/-- `chess.SQUARES`. -/
def SQUARES : List Square := List.range 64

inductive PieceType
  | pawn
  | knight
  | bishop
  | rook
  | queen
  | king
  deriving DecidableEq, Repr

/-- `tactics.py::PIECE_VALUES`. -/
def PIECE_VALUES : PieceType → Nat
  | .pawn => 1
  | .knight => 3
  | .bishop => 3
  | .rook => 5
  | .queen => 9
  | .king => 0

/-- A piece: type and color (`true` = white, as `chess.WHITE = True`). -/
structure Piece where
  piece_type : PieceType
  color : Bool
  deriving DecidableEq, Repr

def piece_type_char : PieceType → Char
  | .pawn => 'p'
  | .knight => 'n'
  | .bishop => 'b'
  | .rook => 'r'
  | .queen => 'q'
  | .king => 'k'

/-- `piece.symbol().upper() if piece.color == chess.WHITE else ...lower()`. -/
def piece_symbol (p : Piece) : String :=
  if p.color then String.mk [(piece_type_char p.piece_type).toUpper]
  else String.mk [piece_type_char p.piece_type]

/-- `chess.Move`: origin, destination, optional promotion piece. -/
structure Mv where
  from_square : Square
  to_square : Square
  promotion : Option PieceType := none
  deriving DecidableEq, Repr

/-- `move.uci()`. -/
def move_uci (m : Mv) : String :=
  square_name m.from_square ++ square_name m.to_square ++
    (match m.promotion with
     | some pt => String.mk [piece_type_char pt]
     | none => "")

/-- Abstract python-chess board: the primitives used by `tactics.py`. -/
structure Board where
  piece_at : Square → Option Piece
  attackers : Bool → Square → List Square
  is_check : Bool
  legal_moves : List Mv

/-- `board.is_attacked_by(color, square)`: some attacker exists. -/
def is_attacked_by (b : Board) (c : Bool) (sq : Square) : Bool :=
  !(b.attackers c sq).isEmpty

/-- `models/analysis.py::SquareControl`: per-square attacker counts and
material sums, rank-major as in the Python 8×8 lists, plus the per-piece
legal-move lists (unused by the fork and pin detectors). -/
structure SquareControl where
  white_control : Nat → Nat → Int
  black_control : Nat → Nat → Int
  white_control_material : Nat → Nat → Int
  black_control_material : Nat → Nat → Int
  white_legal_moves : List (String × List String) := []
  black_legal_moves : List (String × List String) := []

/-- `models/analysis.py::TacticalMotif`. -/
structure TacticalMotif where
  motif_type : String
  piece : String
  piece_square : String
  targets : List String
  move : String
  description : String
  deriving DecidableEq, Repr

/-! ### Fork detection (`tactics.py::TacticsService.detect_fork`) -/

/-- The body of `detect_fork`'s loop over `chess.SQUARES`: decides whether
`target_square` is appended to `valid_targets`.  (The `newly_attacked_pieces`
list is also built there but never read afterwards.) -/
def detect_fork_target_check (board_before board_after : Board) (piece : Piece)
    (move : Mv) (control_after : SquareControl) (target_square : Square) : Bool :=
  match board_after.piece_at target_square with
  | none => false
  | some target_piece =>
      if target_piece.color = piece.color then false
      else if is_attacked_by board_after piece.color target_square then
        if (board_after.attackers piece.color target_square).contains
            move.to_square then
          let was_attacking_before :=
            if (board_before.piece_at move.from_square).isSome then
              (board_before.attackers piece.color target_square).contains
                move.from_square
            else false
          if was_attacking_before then false
          else
            let target_file := square_file target_square
            let target_rank := square_rank target_square
            let target_attacker_control :=
              if piece.color then control_after.white_control target_rank target_file
              else control_after.black_control target_rank target_file
            let target_defender_control :=
              if piece.color then control_after.black_control target_rank target_file
              else control_after.white_control target_rank target_file
            if target_attacker_control > target_defender_control then true
            else if PIECE_VALUES target_piece.piece_type > PIECE_VALUES piece.piece_type
              then true
            else false
        else false
      else false

/-- Lines 150-207 of `detect_fork`: read the landing square's control
metrics from the mover's perspective and compute `safe_landing`. -/
def detect_fork_safe_landing (piece : Piece) (move : Mv)
    (control_after : SquareControl) : Bool :=
  let landing_sq_file := square_file move.to_square
  let landing_sq_rank := square_rank move.to_square
  let attacker_control :=
    if piece.color then control_after.white_control landing_sq_rank landing_sq_file
    else control_after.black_control landing_sq_rank landing_sq_file
  let attacker_material :=
    if piece.color then
      control_after.white_control_material landing_sq_rank landing_sq_file
    else control_after.black_control_material landing_sq_rank landing_sq_file
  let defender_control :=
    if piece.color then control_after.black_control landing_sq_rank landing_sq_file
    else control_after.white_control landing_sq_rank landing_sq_file
  let defender_material :=
    if piece.color then
      control_after.black_control_material landing_sq_rank landing_sq_file
    else control_after.white_control_material landing_sq_rank landing_sq_file
  if defender_control = 0 then true
  else if attacker_control > defender_control then true
  else if attacker_control = defender_control ∧
      attacker_material ≥ defender_material then true
  else false

/-- `tactics.py::TacticsService.detect_fork`. -/
def detect_fork (board_before board_after : Board) (move : Mv)
    (control_before control_after : SquareControl) : Option TacticalMotif :=
  match board_after.piece_at move.to_square with
  | none => none
  | some piece =>
      if detect_fork_safe_landing piece move control_after = false then none
      else
        let valid_targets := SQUARES.filter
          (detect_fork_target_check board_before board_after piece move control_after)
        if 2 ≤ valid_targets.length then
          let target_descriptions := valid_targets.map (fun target_square =>
            (match board_after.piece_at target_square with
             | some target_piece => piece_symbol target_piece
             | none => "") ++ " on " ++ square_name target_square)
          some
            { motif_type := "fork"
              piece := piece_symbol piece
              piece_square := square_name move.to_square
              targets := valid_targets.map square_name
              move := move_uci move
              description := piece_symbol piece ++ " fork from "
                ++ square_name move.to_square ++ " targeting "
                ++ String.intercalate ", " target_descriptions }
        else none

/-- Spec-side landing-square safety (claim C7(a)): `d == 0`, or `a > d`,
or `a == d` with `a_mat ≥ d_mat`, all read from the mover's side of the
post-move control map. -/
def fork_landing_safe (piece : Piece) (move : Mv)
    (control_after : SquareControl) : Prop :=
  let r := square_rank move.to_square
  let f := square_file move.to_square
  let a := if piece.color then control_after.white_control r f
    else control_after.black_control r f
  let a_mat := if piece.color then control_after.white_control_material r f
    else control_after.black_control_material r f
  let d := if piece.color then control_after.black_control r f
    else control_after.white_control r f
  let d_mat := if piece.color then control_after.black_control_material r f
    else control_after.white_control_material r f
  d = 0 ∨ a > d ∨ (a = d ∧ a_mat ≥ d_mat)

/-- Spec-side favorable fork target (claim C7(b)): an opponent piece that
the moved piece attacks from its destination but did not attack from its
origin square, on a square where the attacker's control strictly exceeds
the defender's, or whose piece value strictly exceeds the mover's. -/
def fork_target_favorable (board_before board_after : Board) (piece : Piece)
    (move : Mv) (control_after : SquareControl) (sq : Square) : Bool :=
  match board_after.piece_at sq with
  | none => false
  | some tp =>
      (tp.color ≠ piece.color : Bool) &&
      (board_after.attackers piece.color sq).contains move.to_square &&
      !((board_before.attackers piece.color sq).contains move.from_square) &&
      ((if piece.color then control_after.white_control (square_rank sq) (square_file sq)
          else control_after.black_control (square_rank sq) (square_file sq)) >
        (if piece.color then control_after.black_control (square_rank sq) (square_file sq)
          else control_after.white_control (square_rank sq) (square_file sq)) ||
        PIECE_VALUES tp.piece_type > PIECE_VALUES piece.piece_type)

lemma detect_fork_target_check_eq_favorable (board_before board_after : Board)
    (piece : Piece) (move : Mv) (control_after : SquareControl) (sq : Square)
    (hfrom : (board_before.piece_at move.from_square).isSome = true) :
    detect_fork_target_check board_before board_after piece move control_after sq
      = fork_target_favorable board_before board_after piece move control_after sq := by
  unfold detect_fork_target_check fork_target_favorable
  cases hpa : board_after.piece_at sq with
  | none => rfl
  | some tp =>
      simp only [hfrom, if_true]
      by_cases hcol : tp.color = piece.color
      · simp [hcol]
      · by_cases hmem : move.to_square ∈ board_after.attackers piece.color sq
        · have hatt : is_attacked_by board_after piece.color sq = true := by
            unfold is_attacked_by
            cases hl : board_after.attackers piece.color sq with
            | nil => rw [hl] at hmem; simp at hmem
            | cons a t => simp
          have hcont : (board_after.attackers piece.color sq).contains
              move.to_square = true := by simpa using hmem
          simp [hcol, hatt, hcont, hmem, Bool.and_assoc]
        · have hcont : (board_after.attackers piece.color sq).contains
              move.to_square = false := by simpa using hmem
          by_cases hatt : is_attacked_by board_after piece.color sq
          · simp [hcol, hatt, hcont, hmem]
          · simp [hcol, hatt, hcont, hmem]

lemma detect_fork_safe_landing_iff (piece : Piece) (move : Mv)
    (control_after : SquareControl) :
    detect_fork_safe_landing piece move control_after = true
      ↔ fork_landing_safe piece move control_after := by
  unfold detect_fork_safe_landing fork_landing_safe
  split_ifs <;> simp_all

/-- C7: `detect_fork` returns a fork motif iff the landing square is safe
(`d == 0`, or `a > d`, or `a == d` with `a_mat ≥ d_mat`) and at least two
opponent pieces newly attacked by the moved piece from its destination (but
not from its origin square) are favorable targets (attacker control
exceeds defender control on the target square, or the target outvalues the
mover); and the returned target list is exactly the favorable targets. -/
theorem detect_fork_fork_conditions (board_before board_after : Board)
    (move : Mv) (control_before control_after : SquareControl) (p : Piece)
    (hp : board_after.piece_at move.to_square = some p)
    (hfrom : (board_before.piece_at move.from_square).isSome = true) :
    ((detect_fork board_before board_after move control_before
        control_after).isSome = true ↔
      (fork_landing_safe p move control_after ∧
        2 ≤ (SQUARES.filter
          (fork_target_favorable board_before board_after p move
            control_after)).length)) ∧
    ∀ m, detect_fork board_before board_after move control_before
        control_after = some m →
      m.targets = (SQUARES.filter
        (fork_target_favorable board_before board_after p move
          control_after)).map square_name := by
  have hfilter : SQUARES.filter
      (detect_fork_target_check board_before board_after p move control_after)
      = SQUARES.filter
        (fork_target_favorable board_before board_after p move control_after) :=
    List.filter_congr (fun sq _ =>
      detect_fork_target_check_eq_favorable board_before board_after p move
        control_after sq hfrom)
  simp only [detect_fork, hp, hfilter]
  by_cases hsafe : detect_fork_safe_landing p move control_after = false
  · rw [if_pos hsafe]
    have hns : ¬ fork_landing_safe p move control_after := by
      rw [← detect_fork_safe_landing_iff]
      simp [hsafe]
    constructor
    · simp [hns]
    · intro m hm
      cases hm
  · rw [if_neg hsafe]
    have hs : fork_landing_safe p move control_after := by
      rw [← detect_fork_safe_landing_iff]
      simpa using hsafe
    by_cases hlen : 2 ≤ (SQUARES.filter
        (fork_target_favorable board_before board_after p move
          control_after)).length
    · rw [if_pos hlen]
      refine ⟨by simp [hs, hlen], fun m hm => ?_⟩
      injection hm with hmot
      rw [← hmot]
    · rw [if_neg hlen]
      constructor
      · simp [hlen]
      · intro m hm
        cases hm

/-- Concrete knight-fork instance: a white knight that was on a1 (square 0)
has landed on b2 (square 9); from there it newly attacks a black queen on
c3 (18) and a black rook on d4 (27); nothing defends the landing square. -/
def fork_board_before : Board :=
  { piece_at := fun sq => if sq = 0 then some ⟨.knight, true⟩
      else if sq = 18 then some ⟨.queen, false⟩
      else if sq = 27 then some ⟨.rook, false⟩ else none
    attackers := fun _ _ => []
    is_check := false
    legal_moves := [] }

def fork_board_after : Board :=
  { piece_at := fun sq => if sq = 9 then some ⟨.knight, true⟩
      else if sq = 18 then some ⟨.queen, false⟩
      else if sq = 27 then some ⟨.rook, false⟩ else none
    attackers := fun c sq => if c = true ∧ (sq = 18 ∨ sq = 27) then [9] else []
    is_check := false
    legal_moves := [] }

def zero_control : SquareControl :=
  { white_control := fun _ _ => 0
    black_control := fun _ _ => 0
    white_control_material := fun _ _ => 0
    black_control_material := fun _ _ => 0 }

def fork_move : Mv := { from_square := 0, to_square := 9 }

/-- Witness for C7, applying the theorem at the concrete knight fork. -/
theorem detect_fork_fork_conditions_witness :
    ((detect_fork fork_board_before fork_board_after fork_move zero_control
        zero_control).isSome = true ↔
      (fork_landing_safe ⟨.knight, true⟩ fork_move zero_control ∧
        2 ≤ (SQUARES.filter
          (fork_target_favorable fork_board_before fork_board_after
            ⟨.knight, true⟩ fork_move zero_control)).length)) ∧
    ∀ m, detect_fork fork_board_before fork_board_after fork_move zero_control
        zero_control = some m →
      m.targets = (SQUARES.filter
        (fork_target_favorable fork_board_before fork_board_after
          ⟨.knight, true⟩ fork_move zero_control)).map square_name :=
  detect_fork_fork_conditions fork_board_before fork_board_after fork_move
    zero_control zero_control ⟨.knight, true⟩ (by decide) (by decide)

/-! ### Pin detection (`tactics.py::TacticsService.detect_pin`) -/

/-- The direction list built at lines 391-396: diagonals for bishop/queen,
orthogonals for rook/queen. -/
def pin_directions (pt : PieceType) : List (Int × Int) :=
  (if pt = .bishop ∨ pt = .queen then [(1, 1), (1, -1), (-1, 1), (-1, -1)]
    else []) ++
  (if pt = .rook ∨ pt = .queen then [(0, 1), (1, 0), (0, -1), (-1, 0)]
    else [])

/-- The `while True` ray scan of `detect_pin` (lines 408-450), tracking
`first_piece` and stopping per the source's `break` conditions.  `fuel`
bounds the recursion: from an on-board origin with a nonzero direction the
bounds test fails after at most 8 steps, so fuel 16 is never exhausted. -/
def scan_ray_go (board_after : Board) (opponent_color : Bool)
    (file rank dx dy : Int) :
    Nat → Nat → Option Square → Option Square × Option Square
  | 0, _, first => (first, none)
  | fuel + 1, steps, first =>
      -- new_file = file + dx*steps, new_rank = rank + dy*steps,
      -- new_square = chess.square(new_file, new_rank); inlined here.
      if 0 ≤ file + dx * steps ∧ file + dx * steps < 8 ∧
          0 ≤ rank + dy * steps ∧ rank + dy * steps < 8 then
        match board_after.piece_at
            (mk_square (file + dx * steps).toNat (rank + dy * steps).toNat) with
        | some piece_at_square =>
            match first with
            | none =>
                if piece_at_square.color = opponent_color then
                  scan_ray_go board_after opponent_color file rank dx dy fuel
                    (steps + 1) (some (mk_square (file + dx * steps).toNat
                      (rank + dy * steps).toNat))
                else (none, none)
            | some fs =>
                if piece_at_square.color = opponent_color then
                  (some fs, some (mk_square (file + dx * steps).toNat
                    (rank + dy * steps).toNat))
                else (some fs, none)
        | none =>
            scan_ray_go board_after opponent_color file rank dx dy fuel
              (steps + 1) first
      else (first, none)

def scan_ray (board_after : Board) (opponent_color : Bool)
    (file rank dx dy : Int) : Option Square × Option Square :=
  scan_ray_go board_after opponent_color file rank dx dy 16 1 none

/-- One direction's processing in `detect_pin` (lines 399-499): scan the
ray; when both a `first_piece` and a `second_piece` were found, test
`is_pin` and report the pair.  `is_pin`'s conjuncts appear in source
order: `moves_after < moves_before` (the source counts `first_piece`'s
legal moves on `board_before` while scanning; `board_before` never
changes, so counting here gives the same value), `not can_take_pinner`,
`valuable_value > pinned_value`, and `pinned_value <= pinner_value`. -/
def detect_pin_direction (board_before board_after : Board) (piece : Piece)
    (move : Mv) (d : Int × Int) : Option (Square × Square) :=
  match scan_ray board_after (!piece.color) (square_file move.to_square)
      (square_rank move.to_square) d.1 d.2 with
  | (some first_piece, some second_piece) =>
      match board_after.piece_at first_piece,
          board_after.piece_at second_piece with
      | some pinned_piece, some valuable_piece =>
          if (board_after.legal_moves.filter
                (fun m => m.from_square = first_piece)).length <
              (board_before.legal_moves.filter
                (fun m => m.from_square = first_piece)).length ∧
            ((board_after.legal_moves.filter
                (fun m => m.from_square = first_piece)).any
              (fun m => m.to_square = move.to_square)) = false ∧
            PIECE_VALUES valuable_piece.piece_type
              > PIECE_VALUES pinned_piece.piece_type ∧
            PIECE_VALUES pinned_piece.piece_type
              ≤ PIECE_VALUES piece.piece_type
          then some (first_piece, second_piece)
          else none
      | _, _ => none
  | _ => none

/-- `pinned_pieces` zipped with `valuable_pieces_behind`: the directions
whose scan found a pair passing `is_pin`, in direction order. -/
def detect_pin_pairs (board_before board_after : Board) (piece : Piece)
    (move : Mv) : List (Square × Square) :=
  (pin_directions piece.piece_type).filterMap
    (detect_pin_direction board_before board_after piece move)

/-- `tactics.py::TacticsService.detect_pin`. -/
def detect_pin (board_before board_after : Board) (move : Mv)
    (control_before control_after : SquareControl) : Option TacticalMotif :=
  if board_after.is_check then none
  else
    match board_after.piece_at move.to_square with
    | none => none
    | some piece =>
        if piece.piece_type = PieceType.bishop ∨
            piece.piece_type = PieceType.rook ∨
            piece.piece_type = PieceType.queen then
          match detect_pin_pairs board_before board_after piece move with
          | [] => none
          | pr :: rest =>
              some
                { motif_type := "pin"
                  piece := piece_symbol piece
                  piece_square := square_name move.to_square
                  targets := (pr :: rest).map (fun q => square_name q.1)
                  move := move_uci move
                  description := piece_symbol piece ++ " creates pin(s) from "
                    ++ square_name move.to_square ++ ": "
                    ++ String.intercalate "; " ((pr :: rest).map (fun q =>
                      (match board_after.piece_at q.1 with
                       | some pp => piece_symbol pp
                       | none => "") ++ " on " ++ square_name q.1
                      ++ " pinned to " ++
                      (match board_after.piece_at q.2 with
                       | some vp => piece_symbol vp
                       | none => "") ++ " on " ++ square_name q.2)) }
        else none

/-- The square reached after `k` steps from `(file, rank)` in direction
`(dx, dy)` when still on the board. -/
def ray_step_raw (file rank dx dy : Int) (k : Nat) : Option Square :=
  let f := file + dx * k
  let r := rank + dy * k
  if 0 ≤ f ∧ f < 8 ∧ 0 ≤ r ∧ r < 8 then some (mk_square f.toNat r.toNat)
  else none

def ray_step (origin : Square) (dx dy : Int) (k : Nat) : Option Square :=
  ray_step_raw (square_file origin) (square_rank origin) dx dy k

/-- Spec-side ray geometry for a pin (claim C8): along the direction `d`
from `origin`, `first` is the first piece encountered and is an opponent
piece, and `second` is the next piece after it (no intervening piece) and
is also an opponent piece. -/
def ray_pin_geometry (board_after : Board) (opp : Bool) (origin : Square)
    (d : Int × Int) (first second : Square) : Prop :=
  ∃ k1 k2 : Nat, 0 < k1 ∧ k1 < k2 ∧
    ray_step origin d.1 d.2 k1 = some first ∧
    ray_step origin d.1 d.2 k2 = some second ∧
    (∃ pf, board_after.piece_at first = some pf ∧ pf.color = opp) ∧
    (∃ ps, board_after.piece_at second = some ps ∧ ps.color = opp) ∧
    (∀ i : Nat, 0 < i → i < k2 → i ≠ k1 →
      ∃ sq, ray_step origin d.1 d.2 i = some sq ∧
        board_after.piece_at sq = none)

lemma scan_ray_go_some_sound (board_after : Board) (opp : Bool)
    (file rank dx dy : Int) :
    ∀ (fuel steps : Nat) (fs0 : Square) (a : Option Square) (ss : Square),
      scan_ray_go board_after opp file rank dx dy fuel steps (some fs0)
          = (a, some ss) →
      a = some fs0 ∧ ∃ k2 : Nat, steps ≤ k2 ∧
        ray_step_raw file rank dx dy k2 = some ss ∧
        (∃ ps, board_after.piece_at ss = some ps ∧ ps.color = opp) ∧
        ∀ i : Nat, steps ≤ i → i < k2 →
          ∃ sq, ray_step_raw file rank dx dy i = some sq ∧
            board_after.piece_at sq = none := by
  intro fuel
  induction fuel with
  | zero =>
      intro steps fs0 a ss h
      simp [scan_ray_go] at h
  | succ n ih =>
      intro steps fs0 a ss h
      rw [scan_ray_go] at h
      by_cases hb : 0 ≤ file + dx * steps ∧ file + dx * steps < 8 ∧
          0 ≤ rank + dy * steps ∧ rank + dy * steps < 8
      · rw [if_pos hb] at h
        cases hq : board_after.piece_at
            (mk_square (file + dx * steps).toNat (rank + dy * steps).toNat) with
        | some q =>
            rw [hq] at h
            by_cases hcol : q.color = opp
            · simp only [if_pos hcol] at h
              have ha : a = some fs0 := by
                have := congrArg Prod.fst h
                exact this.symm
              have hss : mk_square (file + dx * steps).toNat
                  (rank + dy * steps).toNat = ss := by
                have h2 := congrArg Prod.snd h
                injection h2
              refine ⟨ha, steps, le_refl _, ?_, ?_, ?_⟩
              · unfold ray_step_raw
                rw [if_pos hb, hss]
              · rw [← hss]
                exact ⟨q, hq, hcol⟩
              · intro i h1 h2
                omega
            · simp only [if_neg hcol] at h
              have h2 := congrArg Prod.snd h
              cases h2
        | none =>
            rw [hq] at h
            obtain ⟨ha, k2, hk2, hray, hps, hempty⟩ := ih (steps + 1) fs0 a ss h
            refine ⟨ha, k2, by omega, hray, hps, ?_⟩
            intro i hi1 hi2
            by_cases his : i = steps
            · subst his
              refine ⟨mk_square (file + dx * i).toNat (rank + dy * i).toNat,
                ?_, hq⟩
              unfold ray_step_raw
              rw [if_pos hb]
            · exact hempty i (by omega) hi2
      · rw [if_neg hb] at h
        have h2 := congrArg Prod.snd h
        cases h2

lemma scan_ray_go_none_sound (board_after : Board) (opp : Bool)
    (file rank dx dy : Int) :
    ∀ (fuel steps : Nat) (fs ss : Square),
      scan_ray_go board_after opp file rank dx dy fuel steps none
          = (some fs, some ss) →
      ∃ k1 k2 : Nat, steps ≤ k1 ∧ k1 < k2 ∧
        ray_step_raw file rank dx dy k1 = some fs ∧
        ray_step_raw file rank dx dy k2 = some ss ∧
        (∃ pf, board_after.piece_at fs = some pf ∧ pf.color = opp) ∧
        (∃ ps, board_after.piece_at ss = some ps ∧ ps.color = opp) ∧
        ∀ i : Nat, steps ≤ i → i < k2 → i ≠ k1 →
          ∃ sq, ray_step_raw file rank dx dy i = some sq ∧
            board_after.piece_at sq = none := by
  intro fuel
  induction fuel with
  | zero =>
      intro steps fs ss h
      simp [scan_ray_go] at h
  | succ n ih =>
      intro steps fs ss h
      rw [scan_ray_go] at h
      by_cases hb : 0 ≤ file + dx * steps ∧ file + dx * steps < 8 ∧
          0 ≤ rank + dy * steps ∧ rank + dy * steps < 8
      · rw [if_pos hb] at h
        cases hq : board_after.piece_at
            (mk_square (file + dx * steps).toNat (rank + dy * steps).toNat) with
        | some q =>
            rw [hq] at h
            by_cases hcol : q.color = opp
            · simp only [if_pos hcol] at h
              obtain ⟨ha, k2, hk2, hray, hps, hempty⟩ :=
                scan_ray_go_some_sound board_after opp file rank dx dy n
                  (steps + 1) _ (some fs) ss h
              have hfs : fs = mk_square (file + dx * steps).toNat
                  (rank + dy * steps).toNat := by
                injection ha
              refine ⟨steps, k2, le_refl _, by omega, ?_, hray, ?_, hps, ?_⟩
              · unfold ray_step_raw
                rw [if_pos hb, ← hfs]
              · rw [hfs]
                exact ⟨q, hq, hcol⟩
              · intro i hi1 hi2 hi3
                exact hempty i (by omega) hi2
            · simp only [if_neg hcol] at h
              have h2 := congrArg Prod.fst h
              cases h2
        | none =>
            rw [hq] at h
            obtain ⟨k1, k2, hk1, hk12, hray1, hray2, hpf, hps, hempty⟩ :=
              ih (steps + 1) fs ss h
            refine ⟨k1, k2, by omega, hk12, hray1, hray2, hpf, hps, ?_⟩
            intro i hi1 hi2 hi3
            by_cases his : i = steps
            · subst his
              refine ⟨mk_square (file + dx * i).toNat (rank + dy * i).toNat,
                ?_, hq⟩
              unfold ray_step_raw
              rw [if_pos hb]
            · exact hempty i (by omega) hi2 hi3
      · rw [if_neg hb] at h
        have h2 := congrArg Prod.fst h
        cases h2

lemma detect_pin_direction_sound (board_before board_after : Board)
    (piece : Piece) (move : Mv) (d : Int × Int) (pr : Square × Square)
    (h : detect_pin_direction board_before board_after piece move d = some pr) :
    ray_pin_geometry board_after (!piece.color) move.to_square d pr.1 pr.2 ∧
    ∃ pf ps, board_after.piece_at pr.1 = some pf ∧
      board_after.piece_at pr.2 = some ps ∧
      PIECE_VALUES pf.piece_type < PIECE_VALUES ps.piece_type ∧
      (board_after.legal_moves.filter
          (fun lm => lm.from_square = pr.1)).length <
        (board_before.legal_moves.filter
          (fun lm => lm.from_square = pr.1)).length ∧
      ((board_after.legal_moves.filter
          (fun lm => lm.from_square = pr.1)).any
        (fun lm => lm.to_square = move.to_square)) = false ∧
      PIECE_VALUES pf.piece_type ≤ PIECE_VALUES piece.piece_type := by
  unfold detect_pin_direction at h
  cases hscan : scan_ray board_after (!piece.color)
      (square_file move.to_square) (square_rank move.to_square) d.1 d.2 with
  | mk o1 o2 =>
      rw [hscan] at h
      rcases o1 with _ | fs
      · exact Option.noConfusion h
      · rcases o2 with _ | ss
        · exact Option.noConfusion h
        · simp only [] at h
          cases hp1 : board_after.piece_at fs with
          | none => rw [hp1] at h; exact Option.noConfusion h
          | some pinned_piece =>
              cases hp2 : board_after.piece_at ss with
              | none => rw [hp1, hp2] at h; exact Option.noConfusion h
              | some valuable_piece =>
                  rw [hp1, hp2] at h
                  simp only [] at h
                  by_cases hcond : (board_after.legal_moves.filter
                        (fun m => m.from_square = fs)).length <
                      (board_before.legal_moves.filter
                        (fun m => m.from_square = fs)).length ∧
                    ((board_after.legal_moves.filter
                        (fun m => m.from_square = fs)).any
                      (fun m => m.to_square = move.to_square)) = false ∧
                    PIECE_VALUES valuable_piece.piece_type
                      > PIECE_VALUES pinned_piece.piece_type ∧
                    PIECE_VALUES pinned_piece.piece_type
                      ≤ PIECE_VALUES piece.piece_type
                  · rw [if_pos hcond] at h
                    have hpr : pr = (fs, ss) := by
                      injection h with h2
                      exact h2.symm
                    subst hpr
                    rcases hcond with ⟨hmv, hct, hvv, hpv⟩
                    refine ⟨?_, pinned_piece, valuable_piece, hp1, hp2, hvv,
                      hmv, hct, hpv⟩
                    unfold scan_ray at hscan
                    obtain ⟨k1, k2, hk1, hk12, hr1, hr2, hpf, hps, hemp⟩ :=
                      scan_ray_go_none_sound board_after (!piece.color) _ _
                        d.1 d.2 16 1 fs ss hscan
                    unfold ray_pin_geometry ray_step
                    exact ⟨k1, k2, by omega, hk12, hr1, hr2, hpf, hps,
                      fun i hi0 hik hin => hemp i (by omega) hik hin⟩
                  · rw [if_neg hcond] at h
                    exact Option.noConfusion h

/-- C8: whenever `detect_pin` reports a pin, the move does not deliver
check, the mover is a bishop, rook or queen, and every reported target
square holds an opponent piece `first` that is the first piece on one of
the mover's attack rays from its destination, followed with no intervening
piece by a second opponent piece of strictly greater value; `first` has
strictly fewer legal moves after the move than before, cannot legally
capture the mover, and its value is at most the mover's. -/
theorem detect_pin_sound (board_before board_after : Board) (move : Mv)
    (control_before control_after : SquareControl) (m : TacticalMotif)
    (h : detect_pin board_before board_after move control_before
      control_after = some m) :
    board_after.is_check = false ∧
    ∃ p, board_after.piece_at move.to_square = some p ∧
      (p.piece_type = PieceType.bishop ∨ p.piece_type = PieceType.rook ∨
        p.piece_type = PieceType.queen) ∧
      ∀ t ∈ m.targets,
        ∃ (first second : Square) (pf ps : Piece) (d : Int × Int),
          t = square_name first ∧
          d ∈ pin_directions p.piece_type ∧
          ray_pin_geometry board_after (!p.color) move.to_square d
            first second ∧
          board_after.piece_at first = some pf ∧
          board_after.piece_at second = some ps ∧
          PIECE_VALUES pf.piece_type < PIECE_VALUES ps.piece_type ∧
          (board_after.legal_moves.filter
              (fun lm => lm.from_square = first)).length <
            (board_before.legal_moves.filter
              (fun lm => lm.from_square = first)).length ∧
          (∀ lm ∈ board_after.legal_moves,
            lm.from_square = first → lm.to_square ≠ move.to_square) ∧
          PIECE_VALUES pf.piece_type ≤ PIECE_VALUES p.piece_type := by
  unfold detect_pin at h
  by_cases hc : board_after.is_check = true
  · rw [if_pos hc] at h
    exact Option.noConfusion h
  · rw [if_neg hc] at h
    refine ⟨by simpa using hc, ?_⟩
    cases hpa : board_after.piece_at move.to_square with
    | none => rw [hpa] at h; exact Option.noConfusion h
    | some p =>
        rw [hpa] at h
        simp only [] at h
        by_cases hsl : p.piece_type = PieceType.bishop ∨
            p.piece_type = PieceType.rook ∨ p.piece_type = PieceType.queen
        · rw [if_pos hsl] at h
          refine ⟨p, rfl, hsl, ?_⟩
          cases hpp : detect_pin_pairs board_before board_after p move with
          | nil => rw [hpp] at h; exact Option.noConfusion h
          | cons pr rest =>
              rw [hpp] at h
              simp only [] at h
              have hm : m.targets = (pr :: rest).map (fun q => square_name q.1) := by
                injection h with h2
                rw [← h2]
              intro t ht
              rw [hm] at ht
              obtain ⟨q, hq_mem, hq_eq⟩ := List.mem_map.mp ht
              have hq_pairs : q ∈ detect_pin_pairs board_before board_after p move := by
                rw [hpp]; exact hq_mem
              obtain ⟨d, hd_mem, hd_eq⟩ :=
                List.mem_filterMap.mp hq_pairs
              obtain ⟨hgeo, pf, ps, hpf, hps, hval, hmoves, hct, hle⟩ :=
                detect_pin_direction_sound board_before board_after p move d
                  q hd_eq
              refine ⟨q.1, q.2, pf, ps, d, hq_eq.symm, hd_mem, hgeo, hpf, hps,
                hval, hmoves, ?_, hle⟩
              intro lm hlm hfrom hto
              have : (board_after.legal_moves.filter
                  (fun x => x.from_square = q.1)).any
                    (fun x => x.to_square = move.to_square) = true := by
                rw [List.any_eq_true]
                refine ⟨lm, ?_, by simp [hto]⟩
                rw [List.mem_filter]
                exact ⟨hlm, by simp [hfrom]⟩
              rw [hct] at this
              cases this
        · rw [if_neg hsl] at h
          exact Option.noConfusion h

/-- Concrete rook-pin instance.  A white rook has landed on d1 (square 3).
Up the d-file the first piece is a black bishop on d4 (27); behind it, with
nothing between, a black queen on d8 (59).  The bishop had two legal moves
before and has one after, and cannot capture d1. -/
def pin_board_before : Board :=
  { piece_at := fun sq => if sq = 0 then some ⟨.rook, true⟩
      else if sq = 27 then some ⟨.bishop, false⟩
      else if sq = 59 then some ⟨.queen, false⟩ else none
    attackers := fun _ _ => []
    is_check := false
    legal_moves := [{ from_square := 27, to_square := 26 },
      { from_square := 27, to_square := 28 }] }

def pin_board_after : Board :=
  { piece_at := fun sq => if sq = 3 then some ⟨.rook, true⟩
      else if sq = 27 then some ⟨.bishop, false⟩
      else if sq = 59 then some ⟨.queen, false⟩ else none
    attackers := fun _ _ => []
    is_check := false
    legal_moves := [{ from_square := 27, to_square := 26 }] }

def pin_move : Mv := { from_square := 0, to_square := 3 }

def pin_motif_value : TacticalMotif :=
  { motif_type := "pin"
    piece := "R"
    piece_square := "d1"
    targets := ["d4"]
    move := "a1d1"
    description := "R creates pin(s) from d1: b on d4 pinned to q on d8" }

/-- Witness for C8, applying the theorem at the concrete rook pin. -/
theorem detect_pin_sound_witness :
    pin_board_after.is_check = false ∧
    ∃ p, pin_board_after.piece_at pin_move.to_square = some p ∧
      (p.piece_type = PieceType.bishop ∨ p.piece_type = PieceType.rook ∨
        p.piece_type = PieceType.queen) ∧
      ∀ t ∈ pin_motif_value.targets,
        ∃ (first second : Square) (pf ps : Piece) (d : Int × Int),
          t = square_name first ∧
          d ∈ pin_directions p.piece_type ∧
          ray_pin_geometry pin_board_after (!p.color) pin_move.to_square d
            first second ∧
          pin_board_after.piece_at first = some pf ∧
          pin_board_after.piece_at second = some ps ∧
          PIECE_VALUES pf.piece_type < PIECE_VALUES ps.piece_type ∧
          (pin_board_after.legal_moves.filter
              (fun lm => lm.from_square = first)).length <
            (pin_board_before.legal_moves.filter
              (fun lm => lm.from_square = first)).length ∧
          (∀ lm ∈ pin_board_after.legal_moves,
            lm.from_square = first → lm.to_square ≠ pin_move.to_square) ∧
          PIECE_VALUES pf.piece_type ≤ PIECE_VALUES p.piece_type :=
  detect_pin_sound pin_board_before pin_board_after pin_move zero_control
    zero_control pin_motif_value (by decide)

/-! ### Game analysis (`analysis.py::AnalysisService.analyze_game`)

The analyzer walks a parsed PGN mainline twice.  Boards, moves and square
controls are abstract types `B`, `M`, `S`; the python-chess operations and
the engine calls the analyzer makes are fields of an `AnalyzerCtx`.
`evaluate` returning `none` models `stockfish_service.evaluate_position`
raising.  `tactics` stands for `tactics_service.analyze_move_for_tactics`,
which is total (it catches its own errors and returns `[]`).

The Phase-1 loop body of `analyze_game` begins with
`from app.services.stockfish import is_capture_position,
is_check_position, is_central_move, get_game_phase`; those four names are
defined nowhere in the repository, so the import raises on the first
iteration.  `analyze_game_core` takes that import's outcome as an
`Except`-valued step so that both the faithful analyzer and the repaired
one are instances of the same transcription. -/

/-- `models/analysis.py::PositionAnalysis` (the `tactical_motifs` and
`critical_squares` fields are never read back by `analyze_game` and are
kept at their defaults here). -/
structure PositionAnalysis (S : Type) where
  fen : String
  evaluation : ℚ
  depth : Nat
  is_mate : Bool
  mate_in : Option Int := none
  best_move : Option String := none
  square_control : S

/-- `models/analysis.py::MoveAnalysis`. -/
structure MoveAnalysis (S : Type) where
  move_uci : String
  move_san : String
  move_number : Nat
  fen_before : String
  fen_after : String
  evaluation_before : ℚ
  evaluation_after : ℚ
  evaluation_change : ℚ
  classification : String
  is_best_move : Bool
  is_book_move : Bool
  best_move : Option String
  tactical_motifs : List TacticalMotif
  square_control_before : S
  square_control_after : S
  move_improvement : Option String := none
  deriving DecidableEq

/-- The `player_weaknesses` dict with its four fixed keys. -/
structure PlayerWeaknesses where
  tactical : List Nat
  positional : List Nat
  opening : List Nat
  endgame : List Nat
  deriving DecidableEq, Repr

/-- `models/analysis.py::GameAnalysisResult`. -/
structure GameAnalysisResult (S : Type) where
  game_id : String
  total_moves : Nat
  annotations : List (MoveAnalysis S)
  player_weaknesses : PlayerWeaknesses
  critical_positions : List Nat
  transaction_successful : Bool := true
  transaction_error : Option String := none
  deriving DecidableEq

/-- The operations `analyze_game` performs on boards, moves and the
engine.  `is_capture_position`, `is_check_position` and `get_game_phase`
have no definition in the repository (see `phase1_import` below); for the
repaired analyzer they are abstract context functions whose intent spec
§4.7 describes (capture / check / opening / endgame classification). -/
structure AnalyzerCtx (B M S : Type) where
  push : B → M → B
  fen : B → String
  san : B → M → String
  turn : B → Bool
  uci : M → String
  board_of_fen : String → B
  square_control : B → S
  evaluate : String → Nat → Option EngineEval
  tactics : B → B → M → Bool → List TacticalMotif
  is_capture_position : B → M → Bool
  is_check_position : B → M → Bool
  get_game_phase : B → String

/-- Module-level names bound in `app/services/stockfish.py` (imports,
`logger`, the service class and its singleton). -/
def stockfish_module_names : List String :=
  ["asyncio", "concurrent", "logging", "os", "Dict", "List", "Optional",
   "Tuple", "Union", "chess", "BaseModel", "settings", "logger",
   "StockfishService", "stockfish_service"]

/-- The names the Phase-1 loop body imports from the stockfish module. -/
def phase1_import_names : List String :=
  ["is_capture_position", "is_check_position", "is_central_move",
   "get_game_phase"]

/-- `from <module> import <required>`: succeeds iff every required name is
bound in the module. -/
def import_from (module_names required : List String) : Except String Unit :=
  if required.all (fun n => module_names.contains n) then Except.ok ()
  else Except.error "ImportError: cannot import name from app.services.stockfish"

/-- The import executed on every Phase-1 iteration (`analysis.py` line
280). -/
def phase1_import : Except String Unit :=
  import_from stockfish_module_names phase1_import_names

/-- One entry of `move_data` (lines 336-344). -/
structure MoveInfo (M : Type) where
  move : M
  move_san : String
  move_number : Nat
  color : String
  fen_before : String
  fen_after : String
  position_type : String

/-- The Phase-1 loop state. -/
structure Phase1State (B M : Type) where
  temp_board : B
  move_number : Nat
  prev_quick_eval : Option ℚ
  critical_positions : List Nat
  move_data : List (MoveInfo M)
  quick_scan_results : List (String × EngineEval)

/-- Python dict insert (`quick_scan_results[fen] = quick_result`). -/
def qs_insert (rs : List (String × EngineEval)) (k : String)
    (v : EngineEval) : List (String × EngineEval) :=
  if rs.any (fun p => p.1 = k) then
    rs.map (fun p => if p.1 = k then (k, v) else p)
  else rs ++ [(k, v)]

/-- Python dict lookup (`fen in quick_scan_results` / indexing). -/
def qs_lookup (rs : List (String × EngineEval)) (k : String) :
    Option EngineEval :=
  (rs.find? (fun p => p.1 = k)).map (fun p => p.2)

/-- The Phase-1 loop body after the import (lines 270-352).  `quick_depth`
is the literal 10.  The order of effects follows the source: classify by
move characteristics, quick-scan (with the 0.7-pawn swing check only for
standard positions that have a previous quick evaluation, and
error-to-critical fallback), push the move, record `move_data` and
`critical_positions`, and advance the fullmove number after black. -/
def phase1_step {B M S : Type} (ctx : AnalyzerCtx B M S)
    (st : Phase1State B M) (move : M) : Phase1State B M :=
  let move_san := ctx.san st.temp_board move
  let color := if ctx.turn st.temp_board then "white" else "black"
  let fen_before := ctx.fen st.temp_board
  let position_type :=
    if ctx.is_capture_position st.temp_board move then "critical"
    else if ctx.is_check_position st.temp_board move then "critical"
    else if ctx.get_game_phase st.temp_board = "opening" ∧
        st.move_number ≤ 10 then "important"
    else if ctx.get_game_phase st.temp_board = "endgame" then "critical"
    else "standard"
  let scanned : String × Option ℚ × List (String × EngineEval) :=
    match st.prev_quick_eval with
    | some pe =>
        if position_type = "standard" then
          match ctx.evaluate fen_before 10 with
          | some quick_result =>
              let current_eval := if ctx.turn st.temp_board
                then quick_result.evaluation else -quick_result.evaluation
              ((if |current_eval - pe| ≥ 0.7 then "critical" else position_type),
                some current_eval,
                qs_insert st.quick_scan_results fen_before quick_result)
          | none =>
              ("critical", st.prev_quick_eval, st.quick_scan_results)
        else
          match ctx.evaluate fen_before 10 with
          | some quick_result =>
              let current_eval := if ctx.turn st.temp_board
                then quick_result.evaluation else -quick_result.evaluation
              (position_type, some current_eval,
                qs_insert st.quick_scan_results fen_before quick_result)
          | none => (position_type, st.prev_quick_eval, st.quick_scan_results)
    | none =>
        match ctx.evaluate fen_before 10 with
        | some quick_result =>
            let current_eval := if ctx.turn st.temp_board
              then quick_result.evaluation else -quick_result.evaluation
            (position_type, some current_eval,
              qs_insert st.quick_scan_results fen_before quick_result)
        | none => (position_type, st.prev_quick_eval, st.quick_scan_results)
  let board2 := ctx.push st.temp_board move
  let fen_after := ctx.fen board2
  let info : MoveInfo M :=
    { move := move, move_san := move_san, move_number := st.move_number
      color := color, fen_before := fen_before, fen_after := fen_after
      position_type := scanned.1 }
  { temp_board := board2
    move_number := if color = "black" then st.move_number + 1 else st.move_number
    prev_quick_eval := scanned.2.1
    critical_positions :=
      if scanned.1 = "critical" ∨ scanned.1 = "important" then
        st.critical_positions ++ [st.move_number]
      else st.critical_positions
    move_data := st.move_data ++ [info]
    quick_scan_results := scanned.2.2 }

def phase1_init {B M : Type} (b0 : B) : Phase1State B M :=
  { temp_board := b0, move_number := 1, prev_quick_eval := none
    critical_positions := [], move_data := [], quick_scan_results := [] }

/-- Phase 1: fold the loop body over the mainline, performing the import
at the top of every iteration. -/
def phase1_run {B M S : Type} (ctx : AnalyzerCtx B M S)
    (import_step : Except String Unit) (b0 : B) (moves : List M) :
    Except String (Phase1State B M) :=
  moves.foldlM
    (fun st move => import_step.map (fun _ => phase1_step ctx st move))
    (phase1_init b0)

/-- Phase 1 without the failing import, as a total fold (used to state the
theorems about the repaired analyzer). -/
def phase1_total {B M S : Type} (ctx : AnalyzerCtx B M S) (b0 : B)
    (moves : List M) : Phase1State B M :=
  moves.foldl (phase1_step ctx) (phase1_init b0)

/-- `AnalysisService.analyze_position`, as far as `analyze_game` consumes
it: evaluate through the cache-backed engine (`none` = raised), build the
`PositionAnalysis` with a freshly computed square control. -/
def analyze_position {B M S : Type} (ctx : AnalyzerCtx B M S) (fen : String)
    (depth : Nat) : Option (PositionAnalysis S) :=
  (ctx.evaluate fen depth).map (fun ev =>
    { fen := fen
      evaluation := ev.evaluation
      depth := ev.depth
      is_mate := ev.is_mate
      mate_in := ev.mate_in
      best_move := ev.best_move
      square_control := ctx.square_control (ctx.board_of_fen fen) })

/-- Python truthiness of `position_before.best_move` (`None` and the empty
string are falsy). -/
def str_opt_falsy : Option String → Bool
  | none => true
  | some s => s == ""

/-- `position_depth` (line 374) and `position_depth_after` (line 427),
which are computed identically. -/
def position_depth_of {M : Type} (full_depth : Nat) (info : MoveInfo M) : Nat :=
  if info.position_type = "critical" ∨ info.position_type = "important"
  then full_depth else 10

/-- The evaluation of the position before the move raises: the quick-scan
reuse path does not apply and the engine call fails (lines 378-405). -/
def before_eval_raises {B M S : Type} (ctx : AnalyzerCtx B M S)
    (results : List (String × EngineEval)) (full_depth : Nat)
    (info : MoveInfo M) : Prop :=
  ¬(position_depth_of full_depth info = 10 ∧
      (qs_lookup results info.fen_before).isSome) ∧
  ctx.evaluate info.fen_before (position_depth_of full_depth info) = none

/-- Likewise for the position after the move (lines 424-453). -/
def after_eval_raises {B M S : Type} (ctx : AnalyzerCtx B M S)
    (results : List (String × EngineEval)) (full_depth : Nat)
    (info : MoveInfo M) : Prop :=
  ¬(position_depth_of full_depth info = 10 ∧
      (qs_lookup results info.fen_after).isSome) ∧
  ctx.evaluate info.fen_after (position_depth_of full_depth info) = none

/-- The Phase-2 loop body (lines 364-561): produce one `MoveAnalysis` for
one `move_data` entry, with the two try/except blocks around the before
and after evaluations modelled by the `Option` matches (a failed
evaluation yields the neutral 0.0 and a defensively computed default
control map). -/
def annotate_move {B M S : Type} (ctx : AnalyzerCtx B M S)
    (results : List (String × EngineEval)) (full_depth : Nat)
    (info : MoveInfo M) : MoveAnalysis S :=
  let position_depth := position_depth_of full_depth info
  let pb : Option (PositionAnalysis S) :=
    if position_depth = 10 ∧ (qs_lookup results info.fen_before).isSome then
      match qs_lookup results info.fen_before with
      | some r => some
          { fen := info.fen_before, evaluation := r.evaluation
            depth := r.depth, is_mate := r.is_mate, mate_in := r.mate_in
            best_move := r.best_move
            square_control := ctx.square_control
              (ctx.board_of_fen info.fen_before) }
      | none => none
    else analyze_position ctx info.fen_before position_depth
  let bundle_before : PositionAnalysis S × ℚ × S :=
    match pb with
    | some pa =>
        (pa,
          (if ctx.turn (ctx.board_of_fen info.fen_before) then pa.evaluation
            else -pa.evaluation),
          pa.square_control)
    | none =>
        let default_control := ctx.square_control
          (ctx.board_of_fen info.fen_before)
        ({ fen := info.fen_before, evaluation := 0, depth := 0,
            is_mate := false, square_control := default_control },
          0, default_control)
  let position_before := bundle_before.1
  let evaluation_before := bundle_before.2.1
  let square_control_before := bundle_before.2.2
  let pa' : Option (PositionAnalysis S) :=
    if position_depth = 10 ∧ (qs_lookup results info.fen_after).isSome then
      match qs_lookup results info.fen_after with
      | some r => some
          { fen := info.fen_after, evaluation := r.evaluation
            depth := r.depth, is_mate := r.is_mate, mate_in := r.mate_in
            best_move := r.best_move
            square_control := ctx.square_control
              (ctx.board_of_fen info.fen_after) }
      | none => none
    else analyze_position ctx info.fen_after position_depth
  let bundle_after : ℚ × S :=
    match pa' with
    | some pa =>
        ((if ctx.turn (ctx.board_of_fen info.fen_after) then pa.evaluation
            else -pa.evaluation),
          pa.square_control)
    | none =>
        (0, ctx.square_control (ctx.board_of_fen info.fen_after))
  let evaluation_after := bundle_after.1
  let square_control_after := bundle_after.2
  let evaluation_change := evaluation_after - evaluation_before
  let classification_change :=
    if info.color = "black" then -evaluation_change else evaluation_change
  let classification := classify_move classification_change
  let is_best_move :=
    match position_before.best_move with
    | some bm => if bm = "" then false else decide (bm = ctx.uci info.move)
    | none => false
  let best_move_depth20 : Option String :=
    if info.position_type = "critical" ∨ info.position_type = "important" then
      if str_opt_falsy position_before.best_move ∨ position_before.depth < 18 then
        match ctx.evaluate info.fen_before 20 with
        | some r => r.best_move
        | none => none
      else position_before.best_move
    else position_before.best_move
  let tactical_motifs :=
    if info.position_type = "critical" ∨ info.position_type = "important" then
      ctx.tactics (ctx.board_of_fen info.fen_before)
        (ctx.board_of_fen info.fen_after) info.move is_best_move
    else []
  { move_uci := ctx.uci info.move
    move_san := info.move_san
    move_number := info.move_number
    fen_before := info.fen_before
    fen_after := info.fen_after
    evaluation_before := evaluation_before
    evaluation_after := evaluation_after
    evaluation_change := evaluation_change
    classification := classification
    is_best_move := is_best_move
    is_book_move := false
    best_move := best_move_depth20
    tactical_motifs := tactical_motifs
    square_control_before := square_control_before
    square_control_after := square_control_after }

/-- The weakness bookkeeping of the Phase-2 loop (lines 541-555). -/
def weakness_step {B M S : Type} (ctx : AnalyzerCtx B M S)
    (pw : PlayerWeaknesses) (info : MoveInfo M) (ann : MoveAnalysis S) :
    PlayerWeaknesses :=
  if ann.classification = "mistake" ∨ ann.classification = "blunder" then
    let game_phase := ctx.get_game_phase (ctx.board_of_fen info.fen_before)
    let pw1 :=
      if game_phase = "opening" then
        { pw with opening := pw.opening ++ [info.move_number] }
      else if game_phase = "endgame" then
        { pw with endgame := pw.endgame ++ [info.move_number] }
      else pw
    if ann.tactical_motifs ≠ [] then
      { pw1 with tactical := pw1.tactical ++ [info.move_number] }
    else { pw1 with positional := pw1.positional ++ [info.move_number] }
  else pw

/-- `full_depth = depth or 20` (Python truthiness: 0 also falls back
to 20). -/
def full_depth_of (depth : Option Nat) : Nat :=
  match depth with
  | some d => if d = 0 then 20 else d
  | none => 20

/-- `AnalysisService.analyze_game` over a parsed mainline, parameterised by
the outcome of the Phase-1 import. -/
def analyze_game_core {B M S : Type} (ctx : AnalyzerCtx B M S)
    (import_step : Except String Unit) (b0 : B) (moves : List M)
    (game_id : String) (depth : Option Nat) :
    Except String (GameAnalysisResult S) := do
  let full_depth := full_depth_of depth
  let st ← phase1_run ctx import_step b0 moves
  let annotations := st.move_data.map
    (annotate_move ctx st.quick_scan_results full_depth)
  let player_weaknesses := (st.move_data.zip annotations).foldl
    (fun pw pr => weakness_step ctx pw pr.1 pr.2) ⟨[], [], [], []⟩
  pure
    { game_id := game_id
      total_moves := annotations.length
      annotations := annotations
      player_weaknesses := player_weaknesses
      critical_positions := st.critical_positions }

/-- The analyzer as shipped: the Phase-1 import is executed and fails. -/
def analyze_game {B M S : Type} (ctx : AnalyzerCtx B M S) (b0 : B)
    (moves : List M) (game_id : String) (depth : Option Nat) :
    Except String (GameAnalysisResult S) :=
  analyze_game_core ctx phase1_import b0 moves game_id depth

/-- Modelled from the spec: `is_capture_position`, `is_check_position`,
`is_central_move` and `get_game_phase` are imported by `analyze_game` but
defined nowhere under the repository, so the analyzer as shipped raises on
every game with at least one mainline move (claim C1).  Following spec
§4.7, this repaired analyzer is the same transcription with the import
succeeding; the three helpers the loop then uses are the abstract
`AnalyzerCtx` functions. -/
def analyze_game_fixed {B M S : Type} (ctx : AnalyzerCtx B M S) (b0 : B)
    (moves : List M) (game_id : String) (depth : Option Nat) :
    Except String (GameAnalysisResult S) :=
  analyze_game_core ctx (Except.ok ()) b0 moves game_id depth

lemma phase1_run_ok {B M S : Type} (ctx : AnalyzerCtx B M S) (b0 : B)
    (moves : List M) :
    phase1_run ctx (Except.ok ()) b0 moves
      = Except.ok (phase1_total ctx b0 moves) := by
  unfold phase1_run phase1_total
  suffices h : ∀ st : Phase1State B M,
      moves.foldlM
        (fun st move => (Except.ok ()).map (fun _ => phase1_step ctx st move))
        st = Except.ok (moves.foldl (phase1_step ctx) st) from h _
  intro st
  induction moves generalizing st with
  | nil => rfl
  | cons m ms ih => simpa [List.foldlM_cons] using ih (phase1_step ctx st m)

lemma phase1_step_move_data_length {B M S : Type} (ctx : AnalyzerCtx B M S)
    (st : Phase1State B M) (m : M) :
    (phase1_step ctx st m).move_data.length = st.move_data.length + 1 := by
  simp [phase1_step]

lemma phase1_total_move_data_length {B M S : Type} (ctx : AnalyzerCtx B M S)
    (b0 : B) (moves : List M) :
    (phase1_total ctx b0 moves).move_data.length = moves.length := by
  unfold phase1_total
  suffices h : ∀ st : Phase1State B M,
      (moves.foldl (phase1_step ctx) st).move_data.length
        = st.move_data.length + moves.length from by
    simpa [phase1_init] using h (phase1_init b0)
  intro st
  induction moves generalizing st with
  | nil => simp
  | cons m ms ih =>
      simp only [List.foldl_cons, ih (phase1_step ctx st m),
        phase1_step_move_data_length, List.length_cons]
      omega

/-- C1: on any parsed mainline with at least one move, `analyze_game`
raises: the first Phase-1 iteration imports `is_capture_position`,
`is_check_position`, `is_central_move` and `get_game_phase` from the
stockfish service module, none of which that module defines.  Only a
zero-move mainline returns a `GameAnalysisResult` (with no annotations and
no critical positions). -/
theorem analyze_game_import_always_raises {B M S : Type}
    (ctx : AnalyzerCtx B M S) (b0 : B) (moves : List M) (game_id : String)
    (depth : Option Nat) :
    (∀ n ∈ phase1_import_names, stockfish_module_names.contains n = false) ∧
    (moves ≠ [] → analyze_game ctx b0 moves game_id depth
        = Except.error
          "ImportError: cannot import name from app.services.stockfish") ∧
    (moves = [] → analyze_game ctx b0 moves game_id depth
        = Except.ok
          { game_id := game_id, total_moves := 0, annotations := []
            player_weaknesses := ⟨[], [], [], []⟩
            critical_positions := [] }) := by
  refine ⟨by decide, ?_, ?_⟩
  · intro hne
    cases moves with
    | nil => exact absurd rfl hne
    | cons m ms => rfl
  · intro he
    subst he
    rfl

/-- A concrete analyzer context over `B = Nat` (board = ply counter),
`M = Unit`, `S = Unit`: one white move from the position with FEN `fen0`
(white to move, engine evaluation 0.00) to `fen1` (black to move, engine
evaluation −2.00 for the side to move, i.e. +2.00 white-positive). -/
def cex_ctx : AnalyzerCtx Nat Unit Unit :=
  { push := fun b _ => b + 1
    fen := fun b => "fen" ++ toString b
    san := fun _ _ => "e4"
    turn := fun b => b % 2 == 0
    uci := fun _ => "e2e4"
    board_of_fen := fun s => if s = "fen0" then 0 else 1
    square_control := fun _ => ()
    evaluate := fun f d =>
      if f = "fen0" then some ⟨f, 0, d, false, none, none⟩
      else some ⟨f, -2, d, false, none, none⟩
    tactics := fun _ _ _ _ => []
    is_capture_position := fun _ _ => false
    is_check_position := fun _ _ => false
    get_game_phase := fun _ => "middlegame" }

/-- Witness for C1 at the concrete context: a one-move game raises, the
empty game returns the empty result. -/
theorem analyze_game_import_always_raises_witness :
    (∀ n ∈ phase1_import_names, stockfish_module_names.contains n = false) ∧
    analyze_game cex_ctx 0 [()] "g" none
      = Except.error
        "ImportError: cannot import name from app.services.stockfish" ∧
    analyze_game cex_ctx 0 ([] : List Unit) "g" none
      = Except.ok
        { game_id := "g", total_moves := 0, annotations := []
          player_weaknesses := ⟨[], [], [], []⟩
          critical_positions := [] } :=
  ⟨(analyze_game_import_always_raises cex_ctx 0 [()] "g" none).1,
    (analyze_game_import_always_raises cex_ctx 0 [()] "g" none).2.1
      (by decide),
    (analyze_game_import_always_raises cex_ctx 0 [] "g" none).2.2 rfl⟩

lemma phase1_step_spec {B M S : Type} (ctx : AnalyzerCtx B M S)
    (st : Phase1State B M) (m : M) :
    ∃ info : MoveInfo M,
      (phase1_step ctx st m).temp_board = ctx.push st.temp_board m ∧
      (phase1_step ctx st m).move_data = st.move_data ++ [info] ∧
      (phase1_step ctx st m).critical_positions
        = (if info.position_type = "critical" ∨
              info.position_type = "important"
           then st.critical_positions ++ [st.move_number]
           else st.critical_positions) ∧
      info.fen_before = ctx.fen st.temp_board ∧
      info.fen_after = ctx.fen (ctx.push st.temp_board m) ∧
      info.move_number = st.move_number :=
  ⟨_, rfl, rfl, rfl, rfl, rfl, rfl⟩

/-- The repaired analyzer in closed form: Phase 1 is the total fold, Phase
2 the per-move map, the weaknesses the fold over both. -/
lemma analyze_game_fixed_eq {B M S : Type} (ctx : AnalyzerCtx B M S)
    (b0 : B) (moves : List M) (gid : String) (depth : Option Nat) :
    analyze_game_fixed ctx b0 moves gid depth = Except.ok
      { game_id := gid
        total_moves := ((phase1_total ctx b0 moves).move_data.map
          (annotate_move ctx (phase1_total ctx b0 moves).quick_scan_results
            (full_depth_of depth))).length
        annotations := (phase1_total ctx b0 moves).move_data.map
          (annotate_move ctx (phase1_total ctx b0 moves).quick_scan_results
            (full_depth_of depth))
        player_weaknesses := ((phase1_total ctx b0 moves).move_data.zip
            ((phase1_total ctx b0 moves).move_data.map
              (annotate_move ctx
                (phase1_total ctx b0 moves).quick_scan_results
                (full_depth_of depth)))).foldl
          (fun pw pr => weakness_step ctx pw pr.1 pr.2) ⟨[], [], [], []⟩
        critical_positions := (phase1_total ctx b0 moves).critical_positions } := by
  unfold analyze_game_fixed analyze_game_core
  rw [phase1_run_ok]
  rfl

lemma annotate_move_before_fail {B M S : Type} (ctx : AnalyzerCtx B M S)
    (results : List (String × EngineEval)) (full_depth : Nat)
    (info : MoveInfo M)
    (h : before_eval_raises ctx results full_depth info) :
    (annotate_move ctx results full_depth info).evaluation_before = 0 ∧
    (annotate_move ctx results full_depth info).square_control_before
      = ctx.square_control (ctx.board_of_fen info.fen_before) := by
  obtain ⟨h1, h2⟩ := h
  constructor <;>
    simp [annotate_move, analyze_position, if_neg h1, h2]

lemma annotate_move_after_fail {B M S : Type} (ctx : AnalyzerCtx B M S)
    (results : List (String × EngineEval)) (full_depth : Nat)
    (info : MoveInfo M)
    (h : after_eval_raises ctx results full_depth info) :
    (annotate_move ctx results full_depth info).evaluation_after = 0 ∧
    (annotate_move ctx results full_depth info).square_control_after
      = ctx.square_control (ctx.board_of_fen info.fen_after) := by
  obtain ⟨h1, h2⟩ := h
  constructor <;>
    simp [annotate_move, analyze_position, if_neg h1, h2]

/-- C9: an engine failure on a single move is localized.  The repaired
analyzer always returns a result whose annotation list covers every
mainline move, and when evaluating the position before (resp. after) a
move raises, that move's annotation records the neutral evaluation 0.0 and
the defensively computed default square-control map of that position. -/
theorem analyze_game_fault_isolated {B M S : Type} (ctx : AnalyzerCtx B M S)
    (b0 : B) (moves : List M) (gid : String) (depth : Option Nat)
    (results : List (String × EngineEval)) (full_depth : Nat)
    (info : MoveInfo M) :
    (∃ r, analyze_game_fixed ctx b0 moves gid depth = Except.ok r ∧
      r.annotations.length = moves.length) ∧
    (before_eval_raises ctx results full_depth info →
      (annotate_move ctx results full_depth info).evaluation_before = 0 ∧
      (annotate_move ctx results full_depth info).square_control_before
        = ctx.square_control (ctx.board_of_fen info.fen_before)) ∧
    (after_eval_raises ctx results full_depth info →
      (annotate_move ctx results full_depth info).evaluation_after = 0 ∧
      (annotate_move ctx results full_depth info).square_control_after
        = ctx.square_control (ctx.board_of_fen info.fen_after)) := by
  refine ⟨?_, annotate_move_before_fail ctx results full_depth info,
    annotate_move_after_fail ctx results full_depth info⟩
  refine ⟨_, analyze_game_fixed_eq ctx b0 moves gid depth, ?_⟩
  simp [List.length_map, phase1_total_move_data_length]

/-- The concrete context with a permanently failing engine. -/
def fail_ctx : AnalyzerCtx Nat Unit Unit :=
  { cex_ctx with evaluate := fun _ _ => none }

/-- A `move_data` entry of a standard position, for exercising the
failure path at depth 10 with an empty quick-scan store. -/
def info_std : MoveInfo Unit :=
  { move := (), move_san := "e4", move_number := 1, color := "white"
    fen_before := "fa", fen_after := "fb", position_type := "standard" }

/-- Witness for C9: with the failing engine, a one-move game still
produces one annotation, and both failure paths record 0.0 plus the
default control map. -/
theorem analyze_game_fault_isolated_witness :
    (∃ r, analyze_game_fixed fail_ctx 0 [()] "g" none = Except.ok r ∧
      r.annotations.length = [()].length) ∧
    ((annotate_move fail_ctx [] 20 info_std).evaluation_before = 0 ∧
      (annotate_move fail_ctx [] 20 info_std).square_control_before
        = fail_ctx.square_control (fail_ctx.board_of_fen info_std.fen_before)) ∧
    ((annotate_move fail_ctx [] 20 info_std).evaluation_after = 0 ∧
      (annotate_move fail_ctx [] 20 info_std).square_control_after
        = fail_ctx.square_control (fail_ctx.board_of_fen info_std.fen_after)) :=
  ⟨(analyze_game_fault_isolated fail_ctx 0 [()] "g" none [] 20 info_std).1,
    (analyze_game_fault_isolated fail_ctx 0 [()] "g" none [] 20 info_std).2.1
      (by constructor <;> decide),
    (analyze_game_fault_isolated fail_ctx 0 [()] "g" none [] 20 info_std).2.2
      (by constructor <;> decide)⟩

/-- Adjacent-annotation FEN chaining, as a predicate on `move_data`. -/
def fen_chained {M : Type} : List (MoveInfo M) → Prop
  | [] => True
  | [_] => True
  | a :: b :: t => a.fen_after = b.fen_before ∧ fen_chained (b :: t)

lemma fen_chained_append {M : Type} (l : List (MoveInfo M))
    (info : MoveInfo M) (h : fen_chained l)
    (hlast : ∀ last, l.getLast? = some last →
      last.fen_after = info.fen_before) :
    fen_chained (l ++ [info]) := by
  induction l with
  | nil => simp [fen_chained]
  | cons a t ih =>
      cases t with
      | nil =>
          refine ⟨hlast a (by simp), ?_⟩
          simp [fen_chained]
      | cons b t2 =>
          obtain ⟨h1, h2⟩ := h
          exact ⟨h1, ih h2 (fun last hl => hlast last (by simpa using hl))⟩

lemma fen_chained_get {M : Type} :
    ∀ (l : List (MoveInfo M)), fen_chained l →
      ∀ (i : Nat) (hi : i + 1 < l.length),
        (l.get ⟨i, Nat.lt_of_succ_lt hi⟩).fen_after
          = (l.get ⟨i + 1, hi⟩).fen_before := by
  intro l
  induction l with
  | nil => intro h i hi; simp at hi
  | cons a t ih =>
      intro h i hi
      cases t with
      | nil => simp at hi
      | cons b t2 =>
          obtain ⟨h1, h2⟩ := h
          cases i with
          | zero => exact h1
          | succ j =>
              exact ih h2 j (by simpa using Nat.lt_of_succ_lt_succ hi)

/-- The last `move_data` entry's FEN-after is the current board's FEN. -/
def last_fen_matches {B M S : Type} (ctx : AnalyzerCtx B M S)
    (st : Phase1State B M) : Prop :=
  ∀ last, st.move_data.getLast? = some last →
    last.fen_after = ctx.fen st.temp_board

lemma phase1_fold_chained {B M S : Type} (ctx : AnalyzerCtx B M S)
    (moves : List M) :
    ∀ st : Phase1State B M, fen_chained st.move_data →
      last_fen_matches ctx st →
      fen_chained ((moves.foldl (phase1_step ctx) st).move_data) ∧
      last_fen_matches ctx (moves.foldl (phase1_step ctx) st) := by
  induction moves with
  | nil => intro st h1 h2; exact ⟨h1, h2⟩
  | cons m ms ih =>
      intro st h1 h2
      simp only [List.foldl_cons]
      obtain ⟨info, htemp, hmd, hcp, hfb, hfa, hmn⟩ := phase1_step_spec ctx st m
      apply ih
      · rw [hmd]
        exact fen_chained_append _ _ h1
          (fun last hl => by rw [h2 last hl, hfb])
      · intro last hl
        rw [hmd, List.getLast?_concat] at hl
        have hli : last = info := by injection hl with h3; exact h3.symm
        rw [hli, htemp, hfa]

lemma phase1_total_chained {B M S : Type} (ctx : AnalyzerCtx B M S)
    (b0 : B) (moves : List M) :
    fen_chained (phase1_total ctx b0 moves).move_data := by
  unfold phase1_total
  refine (phase1_fold_chained ctx moves (phase1_init b0) ?_ ?_).1
  · simp [phase1_init, fen_chained]
  · intro last hl
    simp [phase1_init] at hl

lemma annotate_move_fen_before {B M S : Type} (ctx : AnalyzerCtx B M S)
    (results : List (String × EngineEval)) (fd : Nat) (info : MoveInfo M) :
    (annotate_move ctx results fd info).fen_before = info.fen_before := rfl

lemma annotate_move_fen_after {B M S : Type} (ctx : AnalyzerCtx B M S)
    (results : List (String × EngineEval)) (fd : Nat) (info : MoveInfo M) :
    (annotate_move ctx results fd info).fen_after = info.fen_after := rfl

lemma get_map_eq {α β : Type} (f : α → β) (l : List α) (i : Nat)
    (h : i < (l.map f).length) :
    (l.map f).get ⟨i, h⟩ = f (l.get ⟨i, by simpa using h⟩) := by
  simp [List.get_eq_getElem, List.getElem_map]

/-- C10 (chain integrity): in every `GameAnalysisResult` the repaired
analyzer produces, each annotation's FEN-after equals the next
annotation's FEN-before. -/
theorem analyze_game_chain_integrity {B M S : Type}
    (ctx : AnalyzerCtx B M S) (b0 : B) (moves : List M) (gid : String)
    (depth : Option Nat) (r : GameAnalysisResult S) (i : Nat)
    (h : analyze_game_fixed ctx b0 moves gid depth = Except.ok r)
    (hi : i + 1 < r.annotations.length) :
    (r.annotations.get ⟨i, Nat.lt_of_succ_lt hi⟩).fen_after
      = (r.annotations.get ⟨i + 1, hi⟩).fen_before := by
  rw [analyze_game_fixed_eq] at h
  injection h with hr
  subst hr
  rw [get_map_eq, get_map_eq, annotate_move_fen_before, annotate_move_fen_after]
  exact fen_chained_get _ (phase1_total_chained ctx b0 moves) i
    (by simpa using hi)

/-- The concrete two-move analysis used to witness C10. -/
def c10_result : GameAnalysisResult Unit :=
  match analyze_game_fixed cex_ctx 0 [(), ()] "g" none with
  | Except.ok r => r
  | Except.error _ =>
      { game_id := "", total_moves := 0, annotations := []
        player_weaknesses := ⟨[], [], [], []⟩, critical_positions := [] }

/-- Witness for C10 at a concrete two-move game. -/
theorem analyze_game_chain_integrity_witness :
    1 < c10_result.annotations.length ∧
    (c10_result.annotations.get ⟨0, by decide⟩).fen_after
      = (c10_result.annotations.get ⟨1, by decide⟩).fen_before :=
  ⟨by decide,
    analyze_game_chain_integrity cex_ctx 0 [(), ()] "g" none c10_result 0
      (by decide) (by decide)⟩

/-- The move numbers with white-positive `|Δ| ≥ 1.5`, as the claim reads
the `critical_positions` field. -/
def delta_critical_moves {S : Type} (r : GameAnalysisResult S) : List Nat :=
  (r.annotations.filter
      (fun a => decide ((1.5 : ℚ) ≤ |a.evaluation_change|))).map
    (fun a => a.move_number)

/-- Counterexample to C5: in the concrete one-move game, the single move
swings the white-positive evaluation by 2.0 pawns (≥ 1.5), yet
`critical_positions` is empty — the field records the Phase-1
classification, not the `|Δ| ≥ 1.5` moves. -/
theorem analyze_game_critical_positions_cex :
    (analyze_game_fixed cex_ctx 0 [()] "g" none).map
        (fun r => (delta_critical_moves r, r.critical_positions))
      = Except.ok ([1], []) := by
  decide

lemma phase1_critical_positions_spec {B M S : Type}
    (ctx : AnalyzerCtx B M S) (b0 : B) (moves : List M) :
    (phase1_total ctx b0 moves).critical_positions
      = (phase1_total ctx b0 moves).move_data.filterMap
        (fun info =>
          if info.position_type = "critical" ∨
              info.position_type = "important"
          then some info.move_number else none) := by
  unfold phase1_total
  suffices h : ∀ st : Phase1State B M,
      st.critical_positions = st.move_data.filterMap
        (fun info =>
          if info.position_type = "critical" ∨
              info.position_type = "important"
          then some info.move_number else none) →
      (moves.foldl (phase1_step ctx) st).critical_positions
        = (moves.foldl (phase1_step ctx) st).move_data.filterMap
          (fun info =>
            if info.position_type = "critical" ∨
                info.position_type = "important"
            then some info.move_number else none) from
    h (phase1_init b0) (by simp [phase1_init])
  intro st
  induction moves generalizing st with
  | nil => intro h; exact h
  | cons m ms ih =>
      intro h
      simp only [List.foldl_cons]
      apply ih
      obtain ⟨info, htemp, hmd, hcp, hfb, hfa, hmn⟩ := phase1_step_spec ctx st m
      rw [hcp, hmd, List.filterMap_append, h]
      by_cases hc : info.position_type = "critical" ∨
          info.position_type = "important"
      · rw [if_pos hc]
        simp [List.filterMap_cons, hc, hmn]
      · rw [if_neg hc]
        simp [List.filterMap_cons, hc]

/-- C5 (amended): `critical_positions` is exactly the list of Phase-1
fullmove numbers of the moves whose position was classified critical or
important during the quick scan (one entry per qualifying half-move),
independent of the `|Δ| ≥ 1.5` evaluation swings of the annotations. -/
theorem analyze_game_critical_positions_phase1 {B M S : Type}
    (ctx : AnalyzerCtx B M S) (b0 : B) (moves : List M) (gid : String)
    (depth : Option Nat) :
    (analyze_game_fixed ctx b0 moves gid depth).map
        (fun r => r.critical_positions)
      = Except.ok ((phase1_total ctx b0 moves).move_data.filterMap
          (fun info =>
            if info.position_type = "critical" ∨
                info.position_type = "important"
            then some info.move_number else none)) := by
  rw [analyze_game_fixed_eq]
  simp only [Except.map]
  rw [phase1_critical_positions_spec]

end KnightVision
